import Mathlib

/-!
Verification of the sdf-to-usd-converter against its specification.

This file shallowly embeds the converter's core logic in Lean:

* `src/sdf_to_usd/utils.py` — pose algebra (`Pose`, `to_matrix`, `from_matrix`,
  `compose`), pose-string parsing, URI resolution, and USD-name sanitizing;
* `src/sdf_to_usd/parser.py` — the SDF data model and the element-tree loader;
* `src/sdf_to_usd/physics.py` — joint axis snapping and joint-limit emission;
* `src/sdf_to_usd/materials.py` — the material dedup cache;
* `src/sdf_to_usd/mesh_converter.py` and `src/sdf_to_usd/converter.py` /
  `src/sdf_to_usd/usd_builder.py` — the mesh-conversion cache and the
  orchestrated conversion run.

Modelling conventions:

* Python floats are modelled as real numbers (`ℝ`); where a component performs
  only equality tests or order comparisons on numeric values (axis snapping,
  material hashing) the values are modelled as exact rationals (`ℚ`) so that
  the definitions stay executable.  Float literals such as `1e-6` and `1e10`
  are modelled by the exact constants `1 / 1000000` and `10 ^ 10`.
* Python strings are Lean `String`s; helper string functions are implemented
  over the underlying character lists so that concrete runs reduce in the
  kernel.
* Element text is modelled as its whitespace-separated token list.  Each token
  records its surface string; a `Tok.num` token is one that Python's
  `float()` accepts (recording its value), a `Tok.str` token is any other
  token.  Joining tokens with single spaces models `.strip()` (no claim below
  depends on intra-text whitespace).
* Fallible code (Python exceptions) is modelled with `Except Unit`.
-/

set_option maxHeartbeats 2000000
set_option maxRecDepth 16000

/-! ## Pose / transform engine (`utils.py`) -/

/-- 6-DOF pose: position (x, y, z) + orientation (roll, pitch, yaw) in radians.
Mirrors the `Pose` dataclass of `utils.py` (all fields default to 0.0). -/
structure Pose where
  x : ℝ := 0
  y : ℝ := 0
  z : ℝ := 0
  roll : ℝ := 0
  pitch : ℝ := 0
  yaw : ℝ := 0

/-- 4x4 homogeneous transform matrix, entry `mRC` is row R, column C.
Models the numpy 4x4 arrays used by `Pose.to_matrix` / `Pose.from_matrix`. -/
structure Mat4 where
  m00 : ℝ
  m01 : ℝ
  m02 : ℝ
  m03 : ℝ
  m10 : ℝ
  m11 : ℝ
  m12 : ℝ
  m13 : ℝ
  m20 : ℝ
  m21 : ℝ
  m22 : ℝ
  m23 : ℝ
  m30 : ℝ
  m31 : ℝ
  m32 : ℝ
  m33 : ℝ

/-- Matrix product of two 4x4 matrices (numpy `@` on the 4x4 arrays),
written out entrywise. -/
noncomputable def Mat4.mul (A B : Mat4) : Mat4 where
  m00 := A.m00 * B.m00 + A.m01 * B.m10 + A.m02 * B.m20 + A.m03 * B.m30
  m01 := A.m00 * B.m01 + A.m01 * B.m11 + A.m02 * B.m21 + A.m03 * B.m31
  m02 := A.m00 * B.m02 + A.m01 * B.m12 + A.m02 * B.m22 + A.m03 * B.m32
  m03 := A.m00 * B.m03 + A.m01 * B.m13 + A.m02 * B.m23 + A.m03 * B.m33
  m10 := A.m10 * B.m00 + A.m11 * B.m10 + A.m12 * B.m20 + A.m13 * B.m30
  m11 := A.m10 * B.m01 + A.m11 * B.m11 + A.m12 * B.m21 + A.m13 * B.m31
  m12 := A.m10 * B.m02 + A.m11 * B.m12 + A.m12 * B.m22 + A.m13 * B.m32
  m13 := A.m10 * B.m03 + A.m11 * B.m13 + A.m12 * B.m23 + A.m13 * B.m33
  m20 := A.m20 * B.m00 + A.m21 * B.m10 + A.m22 * B.m20 + A.m23 * B.m30
  m21 := A.m20 * B.m01 + A.m21 * B.m11 + A.m22 * B.m21 + A.m23 * B.m31
  m22 := A.m20 * B.m02 + A.m21 * B.m12 + A.m22 * B.m22 + A.m23 * B.m32
  m23 := A.m20 * B.m03 + A.m21 * B.m13 + A.m22 * B.m23 + A.m23 * B.m33
  m30 := A.m30 * B.m00 + A.m31 * B.m10 + A.m32 * B.m20 + A.m33 * B.m30
  m31 := A.m30 * B.m01 + A.m31 * B.m11 + A.m32 * B.m21 + A.m33 * B.m31
  m32 := A.m30 * B.m02 + A.m31 * B.m12 + A.m32 * B.m22 + A.m33 * B.m32
  m33 := A.m30 * B.m03 + A.m31 * B.m13 + A.m32 * B.m23 + A.m33 * B.m33

/-- Convert to 4x4 homogeneous transform matrix (ZYX Euler convention).
Entry-for-entry translation of `Pose.to_matrix` in `utils.py`. -/
noncomputable def Pose.to_matrix (p : Pose) : Mat4 :=
  let cr := Real.cos p.roll
  let sr := Real.sin p.roll
  let cp := Real.cos p.pitch
  let sp := Real.sin p.pitch
  let cy := Real.cos p.yaw
  let sy := Real.sin p.yaw
  { m00 := cy * cp, m01 := cy * sp * sr - sy * cr, m02 := cy * sp * cr + sy * sr, m03 := p.x
    m10 := sy * cp, m11 := sy * sp * sr + cy * cr, m12 := sy * sp * cr - cy * sr, m13 := p.y
    m20 := -sp,     m21 := cp * sr,                m22 := cp * cr,                m23 := p.z
    m30 := 0,       m31 := 0,                      m32 := 0,                      m33 := 1 }

/-- Model of C/Python `math.atan2 y x` over the reals (reals have no signed
zero, so the zero-argument conventions collapse to the plain case split). -/
noncomputable def atan2 (y x : ℝ) : ℝ :=
  if 0 < x then Real.arctan (y / x)
  else if x < 0 then
    if 0 ≤ y then Real.arctan (y / x) + Real.pi else Real.arctan (y / x) - Real.pi
  else
    if 0 < y then Real.pi / 2 else if y < 0 then -(Real.pi / 2) else 0

/-- Model of `np.clip v lo hi` (for `lo ≤ hi`). -/
noncomputable def npclip (v lo hi : ℝ) : ℝ := min (max v lo) hi

/-- Extract pose from a 4x4 transform matrix (ZYX Euler angles).
Translation of `Pose.from_matrix` in `utils.py`; the float literal `1e-6`
is the exact constant `1 / 1000000`. -/
noncomputable def Pose.from_matrix (m : Mat4) : Pose :=
  let pitch := Real.arcsin (-(npclip m.m20 (-1) 1))
  if 1 / 1000000 < |Real.cos pitch| then
    { x := m.m03, y := m.m13, z := m.m23
      roll := atan2 m.m21 m.m22, pitch := pitch, yaw := atan2 m.m10 m.m00 }
  else
    { x := m.m03, y := m.m13, z := m.m23
      roll := atan2 (-m.m12) m.m11, pitch := pitch, yaw := 0 }

/-- Compose two poses: result = parent * child (`Pose.compose` in `utils.py`). -/
noncomputable def Pose.compose (parent child : Pose) : Pose :=
  Pose.from_matrix (Mat4.mul parent.to_matrix child.to_matrix)

/-- The identity pose (`Pose.identity` in `utils.py`: all fields 0.0). -/
def Pose.identity : Pose := {}

/-! ## Pose-string parsing (`utils.parse_pose_string`)

The input string is modelled as the token list produced by
`pose_str.strip().split()`; a `Tok.num` token is one accepted by Python's
`float()`. -/

/-- A whitespace-separated token of an element's text. -/
inductive Tok where
  | num (raw : String) (v : ℝ)
  | str (s : String)

/-- Surface string of a token. -/
def Tok.raw : Tok → String
  | .num r _ => r
  | .str s => s

/-- Whether a token is a Python float literal. -/
def Tok.isNum : Tok → Bool
  | .num _ _ => true
  | .str _ => false

/-- Models the comprehension `[float(v) for v in parts]`: errors (raises
`ValueError`) at the first token `float()` rejects. -/
def floatsOfToks : List Tok → Except Unit (List ℝ)
  | [] => .ok []
  | .num _ v :: ts => (floatsOfToks ts).map (v :: ·)
  | .str _ :: _ => .error ()

/-- The tail of `parse_pose_string` once the float list is built: return the
identity pose unless there are exactly 6 values, else unpack them, converting
the angle fields when `degrees` is set (`math.radians x = x * π / 180`). -/
noncomputable def poseOfParts (parts : List ℝ) (degrees : Bool) : Pose :=
  match parts with
  | [x, y, z, roll, pitch, yaw] =>
    if degrees then
      { x := x, y := y, z := z, roll := roll * (Real.pi / 180)
        pitch := pitch * (Real.pi / 180), yaw := yaw * (Real.pi / 180) }
    else
      { x := x, y := y, z := z, roll := roll, pitch := pitch, yaw := yaw }
  | _ => Pose.identity

/-- `parse_pose_string` of `utils.py` at token level: convert every token with
`float()` (which can raise), then build the pose (≠ 6 values gives the
identity pose after a logged warning). -/
noncomputable def parse_pose_string (toks : List Tok) (degrees : Bool) : Except Unit Pose :=
  match floatsOfToks toks with
  | .error e => .error e
  | .ok parts => .ok (poseOfParts parts degrees)

/-! ## Naming sanitizer (`utils.sanitize_usd_name`)

Character classification (`isdigit`, `isalnum`) is modelled with Lean's
ASCII-range predicates; the claims and counterexamples below only involve
ASCII input. -/

/-- The three chained `str.replace` calls of `sanitize_usd_name`: each maps a
single character to an underscore, so together they are a character map. -/
def replaceSep (c : Char) : Char :=
  if c = '-' ∨ c = '.' ∨ c = ' ' then '_' else c

/-- Make a name safe for use as a USD prim name (`sanitize_usd_name` in
`utils.py`).  Note the order in the source: the leading-digit check runs
BEFORE invalid characters are dropped. -/
def sanitize_usd_name (name : String) : String :=
  let r1 := name.toList.map replaceSep
  let r2 :=
    match r1 with
    | c :: _ => if c.isDigit then '_' :: r1 else r1
    | [] => r1
  let r3 := r2.filter fun c => c.isAlphanum || c == '_'
  if r3.isEmpty then "_unnamed" else String.mk r3

/-- The sanitizer as the specification words it (claim C4): replace, then
drop, THEN prefix an underscore when the result starts with a digit, then map
an empty result to the fallback name.  Used only to compare the two orders. -/
def sanitize_spec_order (name : String) : String :=
  let r1 := name.toList.map replaceSep
  let r2 := r1.filter fun c => c.isAlphanum || c == '_'
  let r3 :=
    match r2 with
    | c :: _ => if c.isDigit then '_' :: r2 else r2
    | [] => r2
  if r3.isEmpty then "_unnamed" else String.mk r3

/-! ## String helpers for POSIX path handling

These model the few `os.path` operations the converter uses, implemented by
structural recursion over character lists so that concrete runs reduce. -/

/-- Whether the first list is a leading segment of the second
(used to model `str.startswith`). -/
def leadMatch : List Char → List Char → Bool
  | [], _ => true
  | _ :: _, [] => false
  | a :: as, b :: bs => a == b && leadMatch as bs

/-- Models `str.startswith pat`. -/
def pyStartsWith (s pat : String) : Bool := leadMatch pat.toList s.toList

/-- Models `str.endswith` for a single-character suffix. -/
def endsWithChar (s : String) (c : Char) : Bool :=
  match s.toList.getLast? with
  | some d => d == c
  | none => false

/-- Models POSIX `os.path.join a b` for two components. -/
def os_path_join (a b : String) : String :=
  if pyStartsWith b "/" then b
  else if a = "" then b
  else if endsWithChar a '/' then a ++ b
  else a ++ "/" ++ b

/-- Splits a character list at the first occurrence of `c`
(models `str.split c 1`): returns the part before and, when `c` occurs,
the part after. -/
def splitFirst (c : Char) : List Char → List Char × Option (List Char)
  | [] => ([], none)
  | a :: as =>
    if a = c then ([], some as)
    else
      let r := splitFirst c as
      (a :: r.1, r.2)

/-- Resolve SDF `model://` URIs to file paths (`resolve_model_uri` in
`utils.py`): `model://name/rest` maps to `model_dir/rest` (the name segment
is dropped), `file://p` maps to `p`, an absolute path passes through, and a
relative path is joined onto `model_dir`. -/
def resolve_model_uri (uri : String) (model_dir : String) : String :=
  if pyStartsWith uri "model://" then
    match (splitFirst '/' (uri.toList.drop 8)).2 with
    | some rest => os_path_join model_dir (String.mk rest)
    | none => model_dir
  else if pyStartsWith uri "file://" then
    String.mk (uri.toList.drop 7)
  else if pyStartsWith uri "/" then
    uri
  else
    os_path_join model_dir uri

/-! ## SDF data model (`parser.py` dataclasses) -/

/-- Inertia tensor components (`SdfInertia`). -/
structure SdfInertia where
  ixx : ℝ := 0
  ixy : ℝ := 0
  ixz : ℝ := 0
  iyy : ℝ := 0
  iyz : ℝ := 0
  izz : ℝ := 0

/-- Link inertial data (`SdfInertial`). -/
structure SdfInertial where
  mass : ℝ := 0
  pose : Pose := Pose.identity
  inertia : SdfInertia := {}

/-- Mesh geometry (`SdfMeshGeometry`). -/
structure SdfMeshGeometry where
  uri : String := ""
  resolved_path : String := ""
  scale : ℝ × ℝ × ℝ := (1, 1, 1)

/-- Box geometry (`SdfBoxGeometry`). -/
structure SdfBoxGeometry where
  size : ℝ × ℝ × ℝ := (1, 1, 1)

/-- Cylinder geometry (`SdfCylinderGeometry`). -/
structure SdfCylinderGeometry where
  radius : ℝ := 1 / 2
  length : ℝ := 1

/-- Sphere geometry (`SdfSphereGeometry`). -/
structure SdfSphereGeometry where
  radius : ℝ := 1 / 2

/-- Capsule geometry (`SdfCapsuleGeometry`). -/
structure SdfCapsuleGeometry where
  radius : ℝ := 1 / 2
  length : ℝ := 1

/-- Geometry container (`SdfGeometry`): the sub-fields are all optional and
default to `None`; the docstring of the source promises exactly one will be
set. -/
structure SdfGeometry where
  mesh : Option SdfMeshGeometry := none
  box : Option SdfBoxGeometry := none
  cylinder : Option SdfCylinderGeometry := none
  sphere : Option SdfSphereGeometry := none
  capsule : Option SdfCapsuleGeometry := none

/-- Number of populated variants of a geometry. -/
def SdfGeometry.populated (g : SdfGeometry) : Nat :=
  (if g.mesh.isSome then 1 else 0) + (if g.box.isSome then 1 else 0) +
    (if g.cylinder.isSome then 1 else 0) + (if g.sphere.isSome then 1 else 0) +
    (if g.capsule.isSome then 1 else 0)

/-- PBR material block (`SdfPbrMaterial`). -/
structure SdfPbrMaterial where
  metalness : ℝ := 0
  roughness : ℝ := 1 / 2
  albedo_map : String := ""
  albedo_map_resolved : String := ""

/-- Material (`SdfMaterial`). -/
structure SdfMaterial where
  diffuse : ℝ × ℝ × ℝ := (4 / 5, 4 / 5, 4 / 5)
  specular : ℝ × ℝ × ℝ := (1 / 10, 1 / 10, 1 / 10)
  pbr : Option SdfPbrMaterial := none

/-- Visual (`SdfVisual`). -/
structure SdfVisual where
  name : String := ""
  pose : Pose := Pose.identity
  geometry : Option SdfGeometry := none
  material : Option SdfMaterial := none

/-- Collision (`SdfCollision`). -/
structure SdfCollision where
  name : String := ""
  pose : Pose := Pose.identity
  geometry : Option SdfGeometry := none

/-- Joint axis (`SdfJointAxis`); the float literals `-1e16` / `1e16` are the
exact constants. -/
structure SdfJointAxis where
  xyz : ℝ × ℝ × ℝ := (0, 0, 1)
  lower_limit : ℝ := -(10 ^ 16)
  upper_limit : ℝ := 10 ^ 16
  damping : ℝ := 0
  stiffness : ℝ := 0
  friction : ℝ := 0

/-- Joint (`SdfJoint`). -/
structure SdfJoint where
  name : String := ""
  type : String := "revolute"
  parent : String := ""
  child : String := ""
  pose : Pose := Pose.identity
  axis : SdfJointAxis := {}

/-- Link (`SdfLink`). -/
structure SdfLink where
  name : String := ""
  pose : Pose := Pose.identity
  inertial : Option SdfInertial := none
  visuals : List SdfVisual := []
  collisions : List SdfCollision := []

/-- Model (`SdfModel`). -/
structure SdfModel where
  name : String := ""
  pose : Pose := Pose.identity
  links : List SdfLink := []
  joints : List SdfJoint := []

/-! ## Element-tree loader (`parser.SdfParser`)

XML elements are modelled structurally; `Xml.findChild` models
`Element.find` (first child with the tag), `Xml.findAll` models
`Element.findall`, `Xml.getAttr` models `Element.get` with a default.
Element text is the token-list model described at the top of the file. -/

/-- An XML element: tag, attributes, optional text, child elements. -/
inductive Xml where
  | elem (tag : String) (attrs : List (String × String))
      (text : Option (List Tok)) (children : List Xml)

/-- Tag of an element. -/
def Xml.tag : Xml → String
  | .elem t _ _ _ => t

/-- Attributes of an element. -/
def Xml.attrs : Xml → List (String × String)
  | .elem _ a _ _ => a

/-- Text of an element (`None` when the element has no text). -/
def Xml.text : Xml → Option (List Tok)
  | .elem _ _ tx _ => tx

/-- Children of an element. -/
def Xml.children : Xml → List Xml
  | .elem _ _ _ cs => cs

/-- Models `elem.find tag`: the first child carrying the tag. -/
def Xml.findChild (x : Xml) (t : String) : Option Xml :=
  x.children.find? fun c => c.tag == t

/-- Models `elem.findall tag`: all children carrying the tag, in order. -/
def Xml.findAll (x : Xml) (t : String) : List Xml :=
  x.children.filter fun c => c.tag == t

/-- Models `elem.get name default`. -/
def Xml.getAttr (x : Xml) (name dflt : String) : String :=
  match x.attrs.find? fun a => a.1 == name with
  | some a => a.2
  | none => dflt

/-- Models `float(elem.text)`: succeeds exactly when the text is present and
consists of a single float-literal token (Python's `float` ignores
surrounding whitespace but rejects anything else, including `None`). -/
def pyFloatText : Option (List Tok) → Except Unit ℝ
  | some [Tok.num _ v] => .ok v
  | _ => .error ()

/-- Models `elem.text.strip()`: raises (AttributeError on `None`) when the
element has no text. -/
def rawTextE : Option (List Tok) → Except Unit String
  | some ts => .ok (" ".intercalate (ts.map Tok.raw))
  | none => .error ()

/-- Models `[float(v) for v in elem.text.strip().split()]`, raising when the
text is `None` or some token is not a float literal. -/
def floatsOfTextE : Option (List Tok) → Except Unit (List ℝ)
  | some ts => floatsOfToks ts
  | none => .error ()

/-- Models the `tuple(parts[:3]) if len(parts) >= 3 else dflt` pattern used
for 3-vector fields. -/
def first3 (l : List ℝ) (dflt : ℝ × ℝ × ℝ) : ℝ × ℝ × ℝ :=
  match l with
  | a :: b :: c :: _ => (a, b, c)
  | _ => dflt

/-- Models the recurring pattern `child = elem.find tag; if child is not
None: x = float(child.text)` with a dataclass default. -/
def floatOr (e : Xml) (tag : String) (dflt : ℝ) : Except Unit ℝ :=
  match e.findChild tag with
  | none => .ok dflt
  | some c => pyFloatText c.text

/-- Models `SdfParser._parse_pose`: identity when the element has no text,
else `parse_pose_string` with the `degrees` attribute flag. -/
noncomputable def parsePoseElem (e : Xml) : Except Unit Pose :=
  match e.text with
  | none => .ok Pose.identity
  | some toks =>
    parse_pose_string toks ((e.getAttr "degrees" "false").toLower == "true")

/-- Models the `pose_elem = elem.find "pose"; if pose_elem is not None: ...`
pattern (the dataclass default is the identity pose). -/
noncomputable def poseOr (e : Xml) : Except Unit Pose :=
  match e.findChild "pose" with
  | none => .ok Pose.identity
  | some pe => parsePoseElem pe

/-- Models `SdfParser._parse_inertia`. -/
def parseInertia (e : Xml) : Except Unit SdfInertia :=
  match floatOr e "ixx" 0 with
  | .error er => .error er
  | .ok ixx =>
  match floatOr e "ixy" 0 with
  | .error er => .error er
  | .ok ixy =>
  match floatOr e "ixz" 0 with
  | .error er => .error er
  | .ok ixz =>
  match floatOr e "iyy" 0 with
  | .error er => .error er
  | .ok iyy =>
  match floatOr e "iyz" 0 with
  | .error er => .error er
  | .ok iyz =>
  match floatOr e "izz" 0 with
  | .error er => .error er
  | .ok izz =>
    .ok { ixx := ixx, ixy := ixy, ixz := ixz, iyy := iyy, iyz := iyz, izz := izz }

/-- Models `SdfParser._parse_inertial`. -/
noncomputable def parseInertial (e : Xml) : Except Unit SdfInertial :=
  match floatOr e "mass" 0 with
  | .error er => .error er
  | .ok mass =>
  match poseOr e with
  | .error er => .error er
  | .ok pose =>
  match e.findChild "inertia" with
  | none => .ok { mass := mass, pose := pose }
  | some ie =>
    match parseInertia ie with
    | .error er => .error er
    | .ok inertia => .ok { mass := mass, pose := pose, inertia := inertia }

/-- Models the mesh branch of `SdfParser._parse_geometry` (building the
`SdfMeshGeometry`, resolving the URI against the model directory). -/
def parseMeshGeom (model_dir : String) (meshE : Xml) : Except Unit SdfMeshGeometry :=
  match meshE.findChild "uri" with
  | none =>
    match meshE.findChild "scale" with
    | none => .ok {}
    | some se =>
      match floatsOfTextE se.text with
      | .error er => .error er
      | .ok parts => .ok { scale := first3 parts (1, 1, 1) }
  | some uriE =>
    match rawTextE uriE.text with
    | .error er => .error er
    | .ok uri =>
      let resolved := resolve_model_uri uri model_dir
      match meshE.findChild "scale" with
      | none => .ok { uri := uri, resolved_path := resolved }
      | some se =>
        match floatsOfTextE se.text with
        | .error er => .error er
        | .ok parts =>
          .ok { uri := uri, resolved_path := resolved, scale := first3 parts (1, 1, 1) }

/-- Models the box branch of `SdfParser._parse_geometry`. -/
def parseBoxGeom (boxE : Xml) : Except Unit SdfBoxGeometry :=
  match boxE.findChild "size" with
  | none => .ok {}
  | some se =>
    match floatsOfTextE se.text with
    | .error er => .error er
    | .ok parts => .ok { size := first3 parts (1, 1, 1) }

/-- Models the cylinder branch of `SdfParser._parse_geometry`. -/
noncomputable def parseCylinderGeom (ce : Xml) : Except Unit SdfCylinderGeometry :=
  match floatOr ce "radius" (1 / 2) with
  | .error er => .error er
  | .ok r =>
    match floatOr ce "length" 1 with
    | .error er => .error er
    | .ok l => .ok { radius := r, length := l }

/-- Models the sphere branch of `SdfParser._parse_geometry`. -/
noncomputable def parseSphereGeom (se : Xml) : Except Unit SdfSphereGeometry :=
  match floatOr se "radius" (1 / 2) with
  | .error er => .error er
  | .ok r => .ok { radius := r }

/-- Models the capsule branch of `SdfParser._parse_geometry`. -/
noncomputable def parseCapsuleGeom (ce : Xml) : Except Unit SdfCapsuleGeometry :=
  match floatOr ce "radius" (1 / 2) with
  | .error er => .error er
  | .ok r =>
    match floatOr ce "length" 1 with
    | .error er => .error er
    | .ok l => .ok { radius := r, length := l }

/-- Models `SdfParser._parse_geometry`: the shape elements are probed in the
fixed order mesh, box, cylinder, sphere, capsule, returning at the first one
found; when none is present the all-`None` geometry container is returned. -/
noncomputable def parseGeometry (model_dir : String) (e : Xml) : Except Unit SdfGeometry :=
  match e.findChild "mesh" with
  | some meshE =>
    match parseMeshGeom model_dir meshE with
    | .error er => .error er
    | .ok m => .ok { mesh := some m }
  | none =>
  match e.findChild "box" with
  | some boxE =>
    match parseBoxGeom boxE with
    | .error er => .error er
    | .ok b => .ok { box := some b }
  | none =>
  match e.findChild "cylinder" with
  | some ce =>
    match parseCylinderGeom ce with
    | .error er => .error er
    | .ok c => .ok { cylinder := some c }
  | none =>
  match e.findChild "sphere" with
  | some se =>
    match parseSphereGeom se with
    | .error er => .error er
    | .ok s => .ok { sphere := some s }
  | none =>
  match e.findChild "capsule" with
  | some ce =>
    match parseCapsuleGeom ce with
    | .error er => .error er
    | .ok c => .ok { capsule := some c }
  | none => .ok {}

/-- Models the `pbr/metal` branch of `SdfParser._parse_material`. -/
noncomputable def parsePbr (model_dir : String) (metalE : Xml) : Except Unit SdfPbrMaterial :=
  match floatOr metalE "metalness" 0 with
  | .error er => .error er
  | .ok m =>
  match floatOr metalE "roughness" (1 / 2) with
  | .error er => .error er
  | .ok r =>
  match metalE.findChild "albedo_map" with
  | none => .ok { metalness := m, roughness := r }
  | some ae =>
    match rawTextE ae.text with
    | .error er => .error er
    | .ok albedo =>
      .ok { metalness := m, roughness := r, albedo_map := albedo
            albedo_map_resolved := resolve_model_uri albedo model_dir }

/-- Models the `diffuse` / `specular` color pattern of
`SdfParser._parse_material`. -/
noncomputable def colorOr (e : Xml) (tag : String) (dflt : ℝ × ℝ × ℝ) : Except Unit (ℝ × ℝ × ℝ) :=
  match e.findChild tag with
  | none => .ok dflt
  | some ce =>
    match floatsOfTextE ce.text with
    | .error er => .error er
    | .ok parts => .ok (first3 parts dflt)

/-- Models `SdfParser._parse_material`. -/
noncomputable def parseMaterial (model_dir : String) (e : Xml) : Except Unit SdfMaterial :=
  match colorOr e "diffuse" (4 / 5, 4 / 5, 4 / 5) with
  | .error er => .error er
  | .ok diffuse =>
  match colorOr e "specular" (1 / 10, 1 / 10, 1 / 10) with
  | .error er => .error er
  | .ok specular =>
  match e.findChild "pbr" with
  | none => .ok { diffuse := diffuse, specular := specular }
  | some pe =>
    match pe.findChild "metal" with
    | none => .ok { diffuse := diffuse, specular := specular }
    | some me =>
      match parsePbr model_dir me with
      | .error er => .error er
      | .ok pbr => .ok { diffuse := diffuse, specular := specular, pbr := some pbr }

/-- Models `SdfParser._parse_visual`. -/
noncomputable def parseVisual (model_dir : String) (e : Xml) : Except Unit SdfVisual :=
  match poseOr e with
  | .error er => .error er
  | .ok pose =>
  match e.findChild "geometry" with
  | none =>
    match e.findChild "material" with
    | none => .ok { name := e.getAttr "name" "visual", pose := pose }
    | some me =>
      match parseMaterial model_dir me with
      | .error er => .error er
      | .ok mat =>
        .ok { name := e.getAttr "name" "visual", pose := pose, material := some mat }
  | some ge =>
    match parseGeometry model_dir ge with
    | .error er => .error er
    | .ok geom =>
      match e.findChild "material" with
      | none =>
        .ok { name := e.getAttr "name" "visual", pose := pose, geometry := some geom }
      | some me =>
        match parseMaterial model_dir me with
        | .error er => .error er
        | .ok mat =>
          .ok { name := e.getAttr "name" "visual", pose := pose
                geometry := some geom, material := some mat }

/-- Models `SdfParser._parse_collision`. -/
noncomputable def parseCollision (model_dir : String) (e : Xml) : Except Unit SdfCollision :=
  match poseOr e with
  | .error er => .error er
  | .ok pose =>
  match e.findChild "geometry" with
  | none => .ok { name := e.getAttr "name" "collision", pose := pose }
  | some ge =>
    match parseGeometry model_dir ge with
    | .error er => .error er
    | .ok geom =>
      .ok { name := e.getAttr "name" "collision", pose := pose, geometry := some geom }

/-- Models the visual loop of `SdfParser._parse_link`: parse each `visual`
child in order and append it ONLY when its `geometry` field is set (the
parsed dataclass itself is always truthy; `visual.geometry` is `None`
exactly when the element had no `geometry` child). -/
noncomputable def parseVisualsList (model_dir : String) : List Xml → Except Unit (List SdfVisual)
  | [] => .ok []
  | e :: es =>
    match parseVisual model_dir e with
    | .error er => .error er
    | .ok v =>
      match parseVisualsList model_dir es with
      | .error er => .error er
      | .ok rest => .ok (if v.geometry.isSome then v :: rest else rest)

/-- Models the collision loop of `SdfParser._parse_link` (same filtering as
for visuals). -/
noncomputable def parseCollisionsList (model_dir : String) : List Xml → Except Unit (List SdfCollision)
  | [] => .ok []
  | e :: es =>
    match parseCollision model_dir e with
    | .error er => .error er
    | .ok c =>
      match parseCollisionsList model_dir es with
      | .error er => .error er
      | .ok rest => .ok (if c.geometry.isSome then c :: rest else rest)

/-- Models `SdfParser._parse_link`. -/
noncomputable def parseLink (model_dir : String) (e : Xml) : Except Unit SdfLink :=
  match poseOr e with
  | .error er => .error er
  | .ok pose =>
  match e.findChild "inertial" with
  | some ie =>
    match parseInertial ie with
    | .error er => .error er
    | .ok inertial =>
      match parseVisualsList model_dir (e.findAll "visual") with
      | .error er => .error er
      | .ok visuals =>
        match parseCollisionsList model_dir (e.findAll "collision") with
        | .error er => .error er
        | .ok collisions =>
          .ok { name := e.getAttr "name" "link", pose := pose
                inertial := some inertial, visuals := visuals, collisions := collisions }
  | none =>
    match parseVisualsList model_dir (e.findAll "visual") with
    | .error er => .error er
    | .ok visuals =>
      match parseCollisionsList model_dir (e.findAll "collision") with
      | .error er => .error er
      | .ok collisions =>
        .ok { name := e.getAttr "name" "link", pose := pose
              visuals := visuals, collisions := collisions }

/-- Models `SdfParser._parse_joint_axis`. -/
noncomputable def parseJointAxis (e : Xml) : Except Unit SdfJointAxis :=
  match
    (match e.findChild "xyz" with
     | none => Except.ok ((0 : ℝ), (0 : ℝ), (1 : ℝ))
     | some xe =>
       match floatsOfTextE xe.text with
       | .error er => .error er
       | .ok parts => .ok (first3 parts (0, 0, 1))) with
  | .error er => .error er
  | .ok xyz =>
  match
    (match e.findChild "limit" with
     | none => Except.ok (-(10 ^ 16 : ℝ), (10 ^ 16 : ℝ))
     | some le =>
       match floatOr le "lower" (-(10 ^ 16)) with
       | .error er => .error er
       | .ok lo =>
         match floatOr le "upper" (10 ^ 16) with
         | .error er => .error er
         | .ok hi => .ok (lo, hi)) with
  | .error er => .error er
  | .ok limits =>
  match
    (match e.findChild "dynamics" with
     | none => Except.ok ((0 : ℝ), (0 : ℝ), (0 : ℝ))
     | some de =>
       match floatOr de "damping" 0 with
       | .error er => .error er
       | .ok d =>
         match floatOr de "stiffness" 0 with
         | .error er => .error er
         | .ok s =>
           match floatOr de "friction" 0 with
           | .error er => .error er
           | .ok f => .ok (d, s, f)) with
  | .error er => .error er
  | .ok dyn =>
    .ok { xyz := xyz, lower_limit := limits.1, upper_limit := limits.2
          damping := dyn.1, stiffness := dyn.2.1, friction := dyn.2.2 }

/-- Models the `parent` / `child` text pattern of `SdfParser._parse_joint`. -/
def nameTextOr (e : Xml) (tag : String) : Except Unit String :=
  match e.findChild tag with
  | none => .ok ""
  | some ce => rawTextE ce.text

/-- Models `SdfParser._parse_joint`. -/
noncomputable def parseJoint (e : Xml) : Except Unit SdfJoint :=
  match poseOr e with
  | .error er => .error er
  | .ok pose =>
  match nameTextOr e "parent" with
  | .error er => .error er
  | .ok parent =>
  match nameTextOr e "child" with
  | .error er => .error er
  | .ok child =>
  match
    (match e.findChild "axis" with
     | none => Except.ok ({} : SdfJointAxis)
     | some ae => parseJointAxis ae) with
  | .error er => .error er
  | .ok axis =>
    .ok { name := e.getAttr "name" "joint", type := e.getAttr "type" "revolute"
          parent := parent, child := child, pose := pose, axis := axis }

/-- Models the link loop of `SdfParser._parse_model` (document order kept). -/
noncomputable def parseLinksList (model_dir : String) : List Xml → Except Unit (List SdfLink)
  | [] => .ok []
  | e :: es =>
    match parseLink model_dir e with
    | .error er => .error er
    | .ok l =>
      match parseLinksList model_dir es with
      | .error er => .error er
      | .ok rest => .ok (l :: rest)

/-- Models the joint loop of `SdfParser._parse_model`. -/
noncomputable def parseJointsList : List Xml → Except Unit (List SdfJoint)
  | [] => .ok []
  | e :: es =>
    match parseJoint e with
    | .error er => .error er
    | .ok j =>
      match parseJointsList es with
      | .error er => .error er
      | .ok rest => .ok (j :: rest)

/-- Models `SdfParser._parse_model`. -/
noncomputable def parseModel (model_dir : String) (e : Xml) : Except Unit SdfModel :=
  match poseOr e with
  | .error er => .error er
  | .ok pose =>
  match parseLinksList model_dir (e.findAll "link") with
  | .error er => .error er
  | .ok links =>
    match parseJointsList (e.findAll "joint") with
    | .error er => .error er
    | .ok joints =>
      .ok { name := e.getAttr "name" "model", pose := pose
            links := links, joints := joints }

/-! ## Geometry/Physics mapper (`physics.py`)

Axis snapping performs only order comparisons on absolute values, so the
axis components are modelled as exact rationals to keep the definition
executable.  Limit emission multiplies by `180 / π`, so it lives over `ℝ`. -/

/-- A USD principal joint axis. -/
inductive UsdAxis where
  | X
  | Y
  | Z
deriving DecidableEq

/-- Models `PhysicsBuilder._determine_axis`: compare the absolute components
and return the first axis (in the order X, Y, Z) whose absolute component is
greatest. -/
def determine_axis (xyz : ℚ × ℚ × ℚ) : UsdAxis :=
  let ax := |xyz.1|
  let ay := |xyz.2.1|
  let az := |xyz.2.2|
  if ax ≥ ay ∧ ax ≥ az then .X
  else if ay ≥ ax ∧ ay ≥ az then .Y
  else .Z

/-- Absolute value of the component of `xyz` selected by an axis. -/
def axisComp (a : UsdAxis) (xyz : ℚ × ℚ × ℚ) : ℚ :=
  match a with
  | .X => |xyz.1|
  | .Y => |xyz.2.1|
  | .Z => |xyz.2.2|

/-- Models Python `math.degrees x = x * (180 / π)`. -/
noncomputable def math_degrees (x : ℝ) : ℝ := x * (180 / Real.pi)

/-- The lower/upper limit attributes emitted by
`PhysicsBuilder._create_revolute_joint`: the limit is converted from radians
to degrees FIRST, and an attribute is set only when the absolute degree value
is below `1e10` (modelled as `10 ^ 10`).  `some d` means the attribute is set
to `d`; `none` means it is omitted (unbounded). -/
noncomputable def revolute_limit_attrs (lower upper : ℝ) : Option ℝ × Option ℝ :=
  let lower_deg := math_degrees lower
  let upper_deg := math_degrees upper
  ((if |lower_deg| < 10 ^ 10 then some lower_deg else none),
   (if |upper_deg| < 10 ^ 10 then some upper_deg else none))

/-- The lower/upper limit attributes emitted by
`PhysicsBuilder._create_prismatic_joint`: the raw (meter) limits pass through
unchanged, each emitted only when its magnitude is below `1e10`. -/
noncomputable def prismatic_limit_attrs (lower upper : ℝ) : Option ℝ × Option ℝ :=
  ((if |lower| < 10 ^ 10 then some lower else none),
   (if |upper| < 10 ^ 10 then some upper else none))

/-! ## Material dedup cache (`materials.MaterialBuilder`)

`_material_hash` concatenates the Python `repr`s of the diffuse triple, the
specular triple and, when a PBR block is present, the metalness, roughness
and albedo-map URI into a string key; distinct field tuples give distinct
strings (float `repr` is faithful) and equal tuples give equal strings, so
the key is modelled as the field tuple itself.  The numeric fields are
modelled as exact rationals: the builder only ever tests them for equality.
-/

/-- Material fields over an exact value type, mirroring `SdfMaterial` /
`SdfPbrMaterial` (only the fields `create_material` reads). -/
structure MatQ where
  diffuse : ℚ × ℚ × ℚ
  specular : ℚ × ℚ × ℚ
  pbr : Option (ℚ × ℚ × String)
deriving DecidableEq

/-- Models `MaterialBuilder._material_hash`: the diffuse and specular
triples, plus metalness / roughness / albedo-map URI when PBR is present.
(`pbr.albedo_map` — the unresolved URI — is what the source hashes.) -/
def material_hash (m : MatQ) : MatQ := m

/-- Association-list lookup (first match), modelling a Python dict that is
only ever extended with keys not already present. -/
def assocFind {κ υ : Type} [DecidableEq κ] (k : κ) : List (κ × υ) → Option υ
  | [] => none
  | (k', v) :: rest => if k' = k then some v else assocFind k rest

/-- Mutable state of a `MaterialBuilder`: the hash→path cache and the
fallback-name counter. -/
structure MatBuilderState where
  cache : List (MatQ × String) := []
  counter : Nat := 0

/-- Result of one `create_material` call: the returned USD material path and
whether this call actually created the material (cache miss). -/
structure MatCreateResult where
  path : String
  created : Bool

/-- Models `MaterialBuilder.create_material`: look the hash key up in the
cache; on a hit return the cached path; on a miss derive the prim name from
the sanitized `name_hint` (or `material_<counter>` when the hint is empty),
define the material under the Looks scope, cache and return its path. -/
def create_material (looks_path : String) (st : MatBuilderState) (mat : MatQ)
    (name_hint : String) : MatCreateResult × MatBuilderState :=
  let mat_key := material_hash mat
  match assocFind mat_key st.cache with
  | some p => (⟨p, false⟩, st)
  | none =>
    let mat_name :=
      if name_hint ≠ "" then sanitize_usd_name name_hint
      else "material_" ++ toString st.counter
    let mat_path := looks_path ++ "/" ++ mat_name
    (⟨mat_path, true⟩,
     { cache := (mat_key, mat_path) :: st.cache, counter := st.counter + 1 })

/-- Runs a sequence of `create_material` calls (one per visual carrying a
material, in document order), collecting the per-call results. -/
def run_materials (looks_path : String) : MatBuilderState → List (MatQ × String) →
    List MatCreateResult × MatBuilderState
  | st, [] => ([], st)
  | st, (m, h) :: rest =>
    let r := create_material looks_path st m h
    let rr := run_materials looks_path r.2 rest
    (r.1 :: rr.1, rr.2)

/-! ## Mesh converter (`mesh_converter.MeshConverter`)

The converter's mutable state is its source→USD cache; calls to the external
Isaac Sim asset converter (`_run_conversion`) are recorded as a trace of
source paths.  The filesystem and the external converter's success are
snapshot parameters of a run.  `os.path.abspath` is modelled as the identity:
every path reaching the converter was resolved against the absolute model
directory, on which `abspath` is the identity. -/

/-- Models `SUPPORTED_MESH_FORMATS` of `mesh_converter.py`. -/
def SUPPORTED_MESH_FORMATS : List String :=
  [".dae", ".stl", ".obj", ".fbx", ".gltf", ".glb"]

/-- Splits a character list at every occurrence of `c`. -/
def splitOnChar (c : Char) : List Char → List (List Char)
  | [] => [[]]
  | a :: as =>
    let r := splitOnChar c as
    if a = c then [] :: r
    else
      match r with
      | h :: t => (a :: h) :: t
      | [] => [[a]]

/-- Models `os.path.basename` (the part after the last slash). -/
def basenameChars (p : List Char) : List Char :=
  (splitOnChar '/' p).getLastD []

/-- Characters after the last dot of a list, when a dot occurs. -/
def afterLastDot : List Char → Option (List Char)
  | [] => none
  | c :: cs =>
    if c = '.' then some ((afterLastDot cs).getD cs)
    else afterLastDot cs

/-- Models `os.path.splitext(p)[1]`: the extension (with its dot) of the
basename, with the basename's leading dots not counting. -/
def extnameOf (p : String) : String :=
  let b := basenameChars p.toList
  let lead := b.takeWhile fun c => c == '.'
  let rest := b.drop lead.length
  match afterLastDot rest with
  | some tail => String.mk ('.' :: tail)
  | none => ""

/-- Models `os.path.splitext(os.path.basename(p))[0]`. -/
def stemOf (p : String) : String :=
  let b := basenameChars p.toList
  String.mk (b.take (b.length - (extnameOf p).toList.length))

/-- Models `str.lower` (ASCII). -/
def lowerStr (s : String) : String := String.mk (s.toList.map Char.toLower)

/-- Mutable state of a `MeshConverter`: the source→USD cache plus the trace
of sources handed to the external converter (`_run_conversion` calls), in
order. -/
structure MeshConvSt where
  cache : List (String × String) := []
  conv_events : List String := []

/-- Per-run snapshot of the world outside the core: which paths exist on
disk, and for which sources the external asset converter succeeds. -/
structure FsEnv where
  fsExists : String → Bool
  convOk : String → Bool

/-- The candidate output path tried at collision counter `k`
(`base.usd`, then `base_1.usd`, `base_2.usd`, ...). -/
def usdCandidate (dir base : String) (k : Nat) : String :=
  if k = 0 then os_path_join dir (base ++ ".usd")
  else os_path_join dir (base ++ "_" ++ toString k ++ ".usd")

/-- Fuel-bounded model of the `while usd_path in self._cache.values()`
collision loop; the fuel `vals.length + 1` always suffices because the
candidates are pairwise distinct. -/
def freshUsdGo (dir base : String) (vals : List String) : Nat → Nat → String
  | 0, k => usdCandidate dir base k
  | fuel + 1, k =>
    let c := usdCandidate dir base k
    if vals.contains c then freshUsdGo dir base vals fuel (k + 1) else c

/-- First candidate output path not already a cached value. -/
def freshUsdPath (dir base : String) (vals : List String) : String :=
  freshUsdGo dir base vals (vals.length + 1) 0

/-- Models `MeshConverter.convert`: raise when the source does not exist;
return the cached USD path on a cache hit; raise on an unsupported
extension; otherwise pick a fresh output path, copy adjacent textures (a
filesystem-only side effect, not modelled), invoke the external converter
(recorded in the trace), and cache the result only when it succeeds. -/
def mesh_convert (env : FsEnv) (output_dir : String) (st : MeshConvSt)
    (source : String) : Except Unit String × MeshConvSt :=
  if !env.fsExists source then (.error (), st)
  else
    match assocFind source st.cache with
    | some usd => (.ok usd, st)
    | none =>
      let ext := lowerStr (extnameOf source)
      if !(SUPPORTED_MESH_FORMATS.contains ext) then (.error (), st)
      else
        let base := stemOf source
        let usd := freshUsdPath (os_path_join output_dir "meshes") base
          (st.cache.map fun e => e.2)
        let st' : MeshConvSt := { st with conv_events := st.conv_events ++ [source] }
        if env.convOk source then
          (.ok usd, { st' with cache := (source, usd) :: st'.cache })
        else (.error (), st')

/-! ## Conversion orchestration (`converter.SdfToUsdConverter.convert` and
`usd_builder.UsdBuilder`) -/

/-- The mesh path a visual contributes to the pre-conversion set
(`vis.geometry and vis.geometry.mesh` truthiness chain). -/
def visualMeshPath (v : SdfVisual) : Option String :=
  match v.geometry with
  | none => none
  | some g =>
    match g.mesh with
    | none => none
    | some mg => some mg.resolved_path

/-- The mesh path a collision contributes to the pre-conversion set. -/
def collisionMeshPath (c : SdfCollision) : Option String :=
  match c.geometry with
  | none => none
  | some g =>
    match g.mesh with
    | none => none
    | some mg => some mg.resolved_path

/-- Models the `mesh_paths` set accumulation of
`SdfToUsdConverter.convert`: every visual's mesh path across all links and,
when collision inclusion is enabled, every collision's mesh path. -/
def collectMeshPaths (m : SdfModel) (include_collision : Bool) : List String :=
  (m.links.map fun link =>
    link.visuals.filterMap visualMeshPath ++
      (if include_collision then link.collisions.filterMap collisionMeshPath else [])).flatten

/-- Ascending lexicographic comparison of two strings by code point,
modelling Python string ordering in `sorted`. -/
def charListLe : List Char → List Char → Bool
  | [], _ => true
  | _ :: _, [] => false
  | a :: as, b :: bs =>
    if a < b then true else if b < a then false else charListLe as bs

/-- String comparison used for `sorted(mesh_paths)`. -/
def strLeB (s t : String) : Bool := charListLe s.toList t.toList

/-- Insertion into an ascending list. -/
def insertSorted (s : String) : List String → List String
  | [] => [s]
  | t :: ts => if strLeB s t then s :: t :: ts else t :: insertSorted s ts

/-- Insertion sort, ascending. -/
def isort : List String → List String
  | [] => []
  | s :: ss => insertSorted s (isort ss)

/-- Models `sorted(mesh_paths)` for the Python set `mesh_paths`: the unique
collected paths in ascending order. -/
def unique_sorted_paths (m : SdfModel) (include_collision : Bool) : List String :=
  isort (collectMeshPaths m include_collision).dedup

/-- Models the pre-conversion loop of `SdfToUsdConverter.convert`: walk the
sorted unique paths; for each path that exists on disk call
`mesh_converter.convert`, counting successes; a failure is caught, logged
and skipped.  Returns the final converter state and the `converted` count. -/
def pre_convert (env : FsEnv) (outDir : String) : MeshConvSt → List String → MeshConvSt × Nat
  | st, [] => (st, 0)
  | st, p :: ps =>
    if env.fsExists p then
      match mesh_convert env outDir st p with
      | (.ok _, st') =>
        let r := pre_convert env outDir st' ps
        (r.1, r.2 + 1)
      | (.error _, st') => pre_convert env outDir st' ps
    else pre_convert env outDir st ps

/-- Models `UsdBuilder._build_mesh_reference`: no node when the resolved
path is empty or missing on disk; otherwise convert (catching failure, which
yields no node) and reference the converted USD file.  The returned value is
the converted artifact the node references (the source adds it as the
reference `./relpath(usd, output_dir)`, a function of the artifact path). -/
def build_mesh_reference (env : FsEnv) (outDir : String) (st : MeshConvSt)
    (mg : SdfMeshGeometry) : Option String × MeshConvSt :=
  if mg.resolved_path = "" || !env.fsExists mg.resolved_path then (none, st)
  else
    match mesh_convert env outDir st mg.resolved_path with
    | (.ok usd, st') => (some usd, st')
    | (.error _, st') => (none, st')

/-- Models the mesh-relevant part of `UsdBuilder._build_visual` /
`_build_geometry` for one visual: only a mesh geometry touches the mesh
converter; primitive shapes build nodes without converting (recorded here as
`none`, i.e. no mesh artifact). -/
def build_visual_mesh (env : FsEnv) (outDir : String) (st : MeshConvSt)
    (v : SdfVisual) : Option String × MeshConvSt :=
  match v.geometry with
  | none => (none, st)
  | some g =>
    match g.mesh with
    | some mg => build_mesh_reference env outDir st mg
    | none => (none, st)

/-- Models the mesh-relevant part of `UsdBuilder._build_collision` for one
collision. -/
def build_collision_mesh (env : FsEnv) (outDir : String) (st : MeshConvSt)
    (c : SdfCollision) : Option String × MeshConvSt :=
  match c.geometry with
  | none => (none, st)
  | some g =>
    match g.mesh with
    | some mg => build_mesh_reference env outDir st mg
    | none => (none, st)

/-- Walk a link's visuals in document order, pairing each with the mesh
artifact its node references (when any). -/
def build_visuals (env : FsEnv) (outDir : String) :
    MeshConvSt → List SdfVisual → List (SdfVisual × Option String) × MeshConvSt
  | st, [] => ([], st)
  | st, v :: vs =>
    let r := build_visual_mesh env outDir st v
    let rest := build_visuals env outDir r.2 vs
    ((v, r.1) :: rest.1, rest.2)

/-- Walk a link's collisions in document order. -/
def build_collisions (env : FsEnv) (outDir : String) :
    MeshConvSt → List SdfCollision → List (SdfCollision × Option String) × MeshConvSt
  | st, [] => ([], st)
  | st, c :: cs =>
    let r := build_collision_mesh env outDir st c
    let rest := build_collisions env outDir r.2 cs
    ((c, r.1) :: rest.1, rest.2)

/-- Per-run build output: each visual (and, when collision inclusion is
enabled, each collision) paired with the mesh artifact its node references. -/
structure BuildOut where
  vis : List (SdfVisual × Option String)
  col : List (SdfCollision × Option String)

/-- Models the link walk of `UsdBuilder.build`: per link, visuals first,
then (when collision inclusion is enabled) collisions. -/
def build_links (env : FsEnv) (outDir : String) (include_collision : Bool) :
    MeshConvSt → List SdfLink → BuildOut × MeshConvSt
  | st, [] => (⟨[], []⟩, st)
  | st, l :: ls =>
    let rv := build_visuals env outDir st l.visuals
    let rc :=
      if include_collision then build_collisions env outDir rv.2 l.collisions
      else ([], rv.2)
    let rest := build_links env outDir include_collision rc.2 ls
    (⟨rv.1 ++ rest.1.vis, rc.1 ++ rest.1.col⟩, rest.2)

/-- Result of one conversion run, as far as mesh conversion is observable:
the sorted unique path list walked by the pre-conversion pass, the
`converted` success count, the per-item build output, and the final mesh
converter state (with its trace of external-converter invocations). -/
structure RunOut where
  pre_list : List String
  converted : Nat
  out : BuildOut
  st : MeshConvSt

/-- Models one `SdfToUsdConverter.convert` run from a loaded model (steps 2
and 3 of the pipeline: the pre-conversion pass over the sorted unique mesh
paths, then the USD build walk, sharing one `MeshConverter`). -/
def convert_run (env : FsEnv) (outDir : String) (include_collision : Bool)
    (m : SdfModel) : RunOut :=
  let paths := unique_sorted_paths m include_collision
  let pre := pre_convert env outDir {} paths
  let built := build_links env outDir include_collision pre.1 m.links
  ⟨paths, pre.2, built.1, built.2⟩

/-- The request/artifact pairs of a run's build output: for every visual
(and collision, when included) its requested mesh path and the artifact its
node references. -/
def outPairs (bo : BuildOut) : List (Option String × Option String) :=
  (bo.vis.map fun e => (visualMeshPath e.1, e.2)) ++
    (bo.col.map fun e => (collisionMeshPath e.1, e.2))

/-- Number of occurrences of a path in an invocation trace. -/
def countP (p : String) (l : List String) : Nat := (l.filter fun s => s = p).length

/-- Propositional form of the ascending string order used by `sorted`. -/
def strLe (a b : String) : Prop := strLeB a b = true

/-! ## Concrete fixtures used by witnesses and counterexamples -/

/-- A red material (diffuse (1,0,0)), no PBR block. -/
def matRed : MatQ := ⟨(1, 0, 0), (0, 0, 0), none⟩

/-- A green material (diffuse (0,1,0)), no PBR block. -/
def matGreen : MatQ := ⟨(0, 1, 0), (0, 0, 0), none⟩

/-- A mesh geometry resolving to `/a/m.dae`. -/
noncomputable def cexMeshGeom : SdfMeshGeometry :=
  { uri := "model://m/meshes/m.dae", resolved_path := "/a/m.dae" }

/-- A model with one link carrying two visuals that reference the same
resolved mesh path `/a/m.dae`. -/
noncomputable def cexModelShared : SdfModel :=
  { name := "m"
    links := [{ name := "l"
                visuals := [{ name := "v1", geometry := some { mesh := some cexMeshGeom } },
                            { name := "v2", geometry := some { mesh := some cexMeshGeom } }] }] }

/-- A model with one link carrying a single visual referencing `/a/m.dae`. -/
noncomputable def cexModelSingle : SdfModel :=
  { name := "m"
    links := [{ name := "l"
                visuals := [{ name := "v1", geometry := some { mesh := some cexMeshGeom } }] }] }

/-- A filesystem snapshot where only `/a/m.dae` exists and every external
conversion fails. -/
def cexEnvFail : FsEnv := ⟨fun s => s == "/a/m.dae", fun _ => false⟩

/-- A filesystem snapshot where only `/a/m.dae` exists and every external
conversion succeeds. -/
def cexEnvOk : FsEnv := ⟨fun s => s == "/a/m.dae", fun _ => true⟩

/-- A model element whose single link has one visual whose geometry element
has NO shape child. -/
noncomputable def cexXmlEmptyGeom : Xml :=
  .elem "model" [("name", "m")] none
    [Xml.elem "link" [("name", "l")] none
      [Xml.elem "visual" [("name", "v")] none
        [Xml.elem "geometry" [] none []]]]

/-- A link element with one visual that has a geometry child (a box) and one
visual without any geometry child. -/
noncomputable def cexXmlLink : Xml :=
  .elem "link" [("name", "l")] none
    [Xml.elem "visual" [("name", "a")] none
      [Xml.elem "geometry" [] none [Xml.elem "box" [] none []]],
     Xml.elem "visual" [("name", "b")] none []]

/-- A geometry element containing both a box and a cylinder shape child. -/
noncomputable def cexXmlBoxCyl : Xml :=
  .elem "geometry" [] none
    [Xml.elem "cylinder" [] none [], Xml.elem "box" [] none []]

/-! # Theorems

Shared helper lemmas first, then one theorem per claim (with its witness and,
for corrected claims, its counterexample). -/

/-! ## Pose algebra lemmas -/

theorem atan2_scale (k y x : ℝ) (hk : 0 < k) : atan2 (k * y) (k * x) = atan2 y x := by
  have hdiv : k * y / (k * x) = y / x := mul_div_mul_left y x (ne_of_gt hk)
  rcases lt_trichotomy x 0 with hx | hx | hx
  · have hkx : k * x < 0 := mul_neg_of_pos_of_neg hk hx
    rw [atan2, atan2, if_neg (not_lt.2 hkx.le), if_neg (not_lt.2 hx.le),
      if_pos hkx, if_pos hx, hdiv]
    rcases le_or_lt 0 y with hy | hy
    · rw [if_pos (mul_nonneg hk.le hy), if_pos hy]
    · rw [if_neg (not_le.2 (mul_neg_of_pos_of_neg hk hy)), if_neg (not_le.2 hy)]
  · subst hx
    rw [mul_zero, atan2, atan2]
    rw [if_neg (lt_irrefl 0), if_neg (lt_irrefl 0), if_neg (lt_irrefl 0), if_neg (lt_irrefl 0)]
    rcases lt_trichotomy y 0 with hy | hy | hy
    · rw [if_neg (not_lt.2 (mul_nonpos_of_nonneg_of_nonpos hk.le hy.le)),
        if_neg (not_lt.2 hy.le), if_pos (mul_neg_of_pos_of_neg hk hy), if_pos hy]
    · subst hy; rw [mul_zero]
    · rw [if_pos (mul_pos hk hy), if_pos hy]
  · rw [atan2, atan2, if_pos (mul_pos hk hx), if_pos hx, hdiv]

theorem atan2_sin_cos (θ : ℝ) (h1 : -Real.pi < θ) (h2 : θ ≤ Real.pi) :
    atan2 (Real.sin θ) (Real.cos θ) = θ := by
  rcases lt_trichotomy (Real.cos θ) 0 with hc | hc | hc
  · rcases le_or_lt 0 (Real.sin θ) with hs | hs
    · have hθ : Real.pi / 2 < θ := by
        by_contra hθ
        push_neg at hθ
        rcases le_or_lt (-(Real.pi / 2)) θ with hθ2 | hθ2
        · exact absurd (Real.cos_nonneg_of_neg_pi_div_two_le_of_le hθ2 hθ) (not_le.2 hc)
        · have : Real.sin θ < 0 :=
            Real.sin_neg_of_neg_of_neg_pi_lt (by nlinarith [Real.pi_pos]) h1
          exact absurd hs (not_le.2 this)
      rw [atan2, if_neg (not_lt.2 hc.le), if_pos hc, if_pos hs,
        ← Real.tan_eq_sin_div_cos]
      have hper : Real.tan (θ - Real.pi) = Real.tan θ := by
        have := Real.tan_periodic (θ - Real.pi)
        simpa using this.symm
      rw [← hper, Real.arctan_tan (by nlinarith [Real.pi_pos]) (by nlinarith [Real.pi_pos])]
      ring
    · have hθ : θ < -(Real.pi / 2) := by
        by_contra hθ
        push_neg at hθ
        rcases le_or_lt θ (Real.pi / 2) with hθ2 | hθ2
        · exact absurd (Real.cos_nonneg_of_neg_pi_div_two_le_of_le hθ hθ2) (not_le.2 hc)
        · have : 0 ≤ Real.sin θ :=
            Real.sin_nonneg_of_nonneg_of_le_pi (by nlinarith [Real.pi_pos]) h2
          exact absurd this (not_le.2 hs)
      rw [atan2, if_neg (not_lt.2 hc.le), if_pos hc, if_neg (not_le.2 hs),
        ← Real.tan_eq_sin_div_cos]
      have hper : Real.tan (θ + Real.pi) = Real.tan θ := Real.tan_periodic θ
      rw [← hper, Real.arctan_tan (by nlinarith [Real.pi_pos]) (by nlinarith [Real.pi_pos])]
      ring
  · rcases Real.cos_eq_zero_iff.1 hc with ⟨k, hk⟩
    have hkr : (-2 : ℝ) < 2 * (k : ℝ) + 1 ∧ (2 * (k : ℝ) + 1) ≤ 2 := by
      constructor <;> nlinarith [Real.pi_pos, hk ▸ h1, hk ▸ h2]
    have hkz : k = 0 ∨ k = -1 := by
      have l1 : (-2 : ℤ) < 2 * k + 1 := by exact_mod_cast hkr.1
      have l2 : (2 * k + 1 : ℤ) ≤ 2 := by exact_mod_cast hkr.2
      omega
    rcases hkz with hkz | hkz
    · subst hkz
      have hθ : θ = Real.pi / 2 := by rw [hk]; ring
      subst hθ
      rw [atan2, hc, if_neg (lt_irrefl 0), if_neg (lt_irrefl 0),
        if_pos (by rw [Real.sin_pi_div_two]; norm_num)]
    · subst hkz
      have hθ : θ = -(Real.pi / 2) := by rw [hk]; push_cast; ring
      subst hθ
      rw [atan2, hc, if_neg (lt_irrefl 0), if_neg (lt_irrefl 0), if_neg, if_pos]
      · rw [Real.sin_neg, Real.sin_pi_div_two]; norm_num
      · rw [Real.sin_neg, Real.sin_pi_div_two]; norm_num
  · have hθ1 : -(Real.pi / 2) < θ := by
      by_contra hθ
      push_neg at hθ
      have : Real.cos θ ≤ 0 := by
        rw [← Real.cos_neg]
        exact Real.cos_nonpos_of_pi_div_two_le_of_le (by linarith)
          (by nlinarith [Real.pi_pos])
      exact absurd hc (not_lt.2 this)
    have hθ2 : θ < Real.pi / 2 := by
      by_contra hθ
      push_neg at hθ
      have : Real.cos θ ≤ 0 :=
        Real.cos_nonpos_of_pi_div_two_le_of_le hθ (by nlinarith [Real.pi_pos])
      exact absurd hc (not_lt.2 this)
    rw [atan2, if_pos hc, ← Real.tan_eq_sin_div_cos, Real.arctan_tan hθ1 hθ2]

theorem npclip_id (v : ℝ) (h1 : -1 ≤ v) (h2 : v ≤ 1) : npclip v (-1) 1 = v := by
  rw [npclip, max_eq_left h1, min_eq_left h2]

theorem identity_to_matrix_mul (M : Mat4) : Mat4.mul Pose.identity.to_matrix M = M := by
  cases M
  simp only [Pose.identity, Pose.to_matrix, Mat4.mul, Real.cos_zero, Real.sin_zero]
  congr 1 <;> ring

theorem atan2_zero_neg (x : ℝ) (hx : x < 0) : atan2 0 x = Real.pi := by
  rw [atan2, if_neg (not_lt.2 hx.le), if_pos hx, if_pos le_rfl, zero_div,
    Real.arctan_zero, zero_add]

theorem from_matrix_to_matrix (p : Pose)
    (hr1 : -Real.pi < p.roll) (hr2 : p.roll ≤ Real.pi)
    (hp1 : -(Real.pi / 2) ≤ p.pitch) (hp2 : p.pitch ≤ Real.pi / 2)
    (hcp : 1 / 1000000 < |Real.cos p.pitch|)
    (hy1 : -Real.pi < p.yaw) (hy2 : p.yaw ≤ Real.pi) :
    Pose.from_matrix p.to_matrix = p := by
  have hcpos : 0 < Real.cos p.pitch := by
    rcases (Real.cos_nonneg_of_mem_Icc ⟨hp1, hp2⟩).lt_or_eq with h | h
    · exact h
    · rw [← h, abs_zero] at hcp
      norm_num at hcp
  obtain ⟨px, py, pz, pr, pp, pw⟩ := p
  simp only at hr1 hr2 hp1 hp2 hcp hy1 hy2 hcpos
  simp only [Pose.from_matrix, Pose.to_matrix]
  rw [npclip_id _ (neg_le_neg (Real.sin_le_one pp)) (by
    rw [neg_le]
    exact Real.neg_one_le_sin pp), neg_neg, Real.arcsin_sin hp1 hp2]
  rw [if_pos hcp]
  rw [atan2_scale _ _ _ hcpos, atan2_sin_cos pr hr1 hr2]
  rw [mul_comm (Real.sin pw) (Real.cos pp), mul_comm (Real.cos pw) (Real.cos pp)]
  rw [atan2_scale _ _ _ hcpos, atan2_sin_cos pw hy1 hy2]

/-! ## Claim C2: compose(identity, p) -/

/-- Claim C2 (corrected).  For every pose p whose Euler angles lie in the
canonical extraction ranges — roll and yaw in (-π, π], pitch in [-π/2, π/2]
with |cos pitch| above the source's 1e-6 gimbal guard — composing the
identity pose with p returns exactly p: the matrix product with the identity
transform is p's own matrix, and `from_matrix` re-extracts the same angles.
Outside these ranges the claim fails (see the counterexample). -/
theorem compose_identity_in_euler_range (p : Pose)
    (hr1 : -Real.pi < p.roll) (hr2 : p.roll ≤ Real.pi)
    (hp1 : -(Real.pi / 2) ≤ p.pitch) (hp2 : p.pitch ≤ Real.pi / 2)
    (hcp : 1 / 1000000 < |Real.cos p.pitch|)
    (hy1 : -Real.pi < p.yaw) (hy2 : p.yaw ≤ Real.pi) :
    Pose.compose Pose.identity p = p := by
  rw [Pose.compose, identity_to_matrix_mul,
    from_matrix_to_matrix p hr1 hr2 hp1 hp2 hcp hy1 hy2]

/-- Witness for C2: the in-range pose (1, 2, 3, 0, 0, 0) composes with the
identity to itself. -/
theorem compose_identity_witness :
    Pose.compose Pose.identity ⟨1, 2, 3, 0, 0, 0⟩ = ⟨1, 2, 3, 0, 0, 0⟩ := by
  apply compose_identity_in_euler_range <;> (try simp) <;> linarith [Real.pi_pos]

/-- Counterexample for C2 as stated: at the pose (0, 0, 0, 0, π, 0), whose
pitch is outside [-π/2, π/2], `compose(identity, p)` returns the equivalent
but differently parameterized pose (0, 0, 0, π, 0, π); its roll differs from
p's roll by π > 3, beyond any floating tolerance, so `compose(identity, p) ≈ p`
fails for this p. -/
theorem compose_identity_pitch_pi_counterexample :
    Pose.compose Pose.identity ⟨0, 0, 0, 0, Real.pi, 0⟩ = ⟨0, 0, 0, Real.pi, 0, Real.pi⟩ ∧
    Pose.compose Pose.identity ⟨0, 0, 0, 0, Real.pi, 0⟩ ≠ ⟨0, 0, 0, 0, Real.pi, 0⟩ ∧
    3 < Real.pi := by
  have heq : Pose.compose Pose.identity ⟨0, 0, 0, 0, Real.pi, 0⟩ =
      ⟨0, 0, 0, Real.pi, 0, Real.pi⟩ := by
    rw [Pose.compose, identity_to_matrix_mul]
    simp only [Pose.from_matrix, Pose.to_matrix, Real.sin_pi, Real.cos_pi,
      Real.sin_zero, Real.cos_zero, mul_zero, zero_mul, mul_one, one_mul, neg_zero,
      mul_neg, sub_zero, zero_sub, add_zero, zero_add]
    rw [npclip_id 0 (by norm_num) (by norm_num), neg_zero, Real.arcsin_zero]
    rw [if_pos (by rw [Real.cos_zero, abs_one]; norm_num)]
    rw [atan2_zero_neg _ (by norm_num)]
  refine ⟨heq, ?_, Real.pi_gt_three⟩
  rw [heq]
  intro h
  have hroll := congrArg Pose.roll h
  simp only at hroll
  exact Real.pi_ne_zero hroll

/-! ## Claim C4: naming sanitizer -/

/-- Claim C4 (code bug).  The sanitizer's leading-digit check runs BEFORE
invalid characters are dropped, so dropping a leading invalid character can
expose a digit: on `"#9wheel"` the source returns `"9wheel"`, which starts
with a digit, violating both the claimed order (replace, drop, then prefix)
and the USD rule stated in the source's own comment; the spec's order yields
`"_9wheel"`.  The claim's three stated examples do hold. -/
theorem sanitize_leading_digit_exposed :
    sanitize_usd_name "#9wheel" = "9wheel" ∧
    ((sanitize_usd_name "#9wheel").toList.headD '_').isDigit = true ∧
    sanitize_spec_order "#9wheel" = "_9wheel" ∧
    sanitize_usd_name "left-leg.01" = "left_leg_01" ∧
    sanitize_usd_name "9wheel" = "_9wheel" ∧
    sanitize_usd_name "" = "_unnamed" := by
  decide

/-! ## Claim C5: parse_pose on malformed input -/

theorem floatsOfToks_all_num (toks : List Tok) (h : ∀ t ∈ toks, t.isNum = true) :
    ∃ vals, floatsOfToks toks = .ok vals ∧ vals.length = toks.length := by
  induction toks with
  | nil => exact ⟨[], rfl, rfl⟩
  | cons t ts ih =>
    match t with
    | .str s => exact absurd (h (Tok.str s) (by simp)) (by simp [Tok.isNum])
    | .num r v =>
      obtain ⟨vals, hv, hl⟩ := ih fun u hu => h u (by simp [hu])
      exact ⟨v :: vals, by simp [floatsOfToks, hv, Except.map], by simp [hl]⟩

theorem poseOfParts_ne_six (parts : List ℝ) (d : Bool) (h : parts.length ≠ 6) :
    poseOfParts parts d = Pose.identity := by
  rcases parts with _ | ⟨a, _ | ⟨b, _ | ⟨c, _ | ⟨e, _ | ⟨f, _ | ⟨g, _ | ⟨i, rest⟩⟩⟩⟩⟩⟩⟩ <;>
    first
    | rfl
    | simp at h

/-- Claim C5 (corrected).  When every whitespace token of the pose text is a
float literal and the token count is not 6, `parse_pose_string` does not
raise: it returns the identity pose.  (As stated the claim is false: a
non-numeric token makes the source raise inside `float()` before the
token-count check — see the counterexample.) -/
theorem parse_pose_token_count (toks : List Tok) (d : Bool)
    (hnum : ∀ t ∈ toks, t.isNum = true) (hlen : toks.length ≠ 6) :
    parse_pose_string toks d = .ok Pose.identity := by
  obtain ⟨vals, hv, hl⟩ := floatsOfToks_all_num toks hnum
  simp only [parse_pose_string, hv, poseOfParts_ne_six vals d (hl ▸ hlen)]

/-- Witness for C5: a pose text of 5 numbers parses to the identity pose
without raising. -/
theorem parse_pose_token_count_witness :
    parse_pose_string
      [Tok.num "1" 1, Tok.num "2" 2, Tok.num "3" 3, Tok.num "4" 4, Tok.num "5" 5]
      false = .ok Pose.identity :=
  parse_pose_token_count _ false (by decide) (by decide)

/-- Counterexample for C5 as stated: the pose text `"x y z"` splits into 3
tokens (≠ 6), yet the source raises (`float("x")` raises ValueError) instead
of returning the identity pose. -/
theorem parse_pose_nonnumeric_counterexample :
    parse_pose_string [Tok.str "x", Tok.str "y", Tok.str "z"] false = .error () ∧
    [Tok.str "x", Tok.str "y", Tok.str "z"].length ≠ 6 :=
  ⟨rfl, by decide⟩

/-! ## Claim C7: joint axis snapping -/

/-- Claim C7 (confirmed).  The snapped axis always carries the largest
absolute component, and ties break in the order X, then Y, then Z: the
result is X exactly when x's magnitude is no smaller than both others, Y
exactly when it is not X but y's magnitude is no smaller than both others,
and Z otherwise; in particular (0.1, 0.9, 0.05) snaps to Y and (0, 0, 1)
snaps to Z. -/
theorem axis_snapping_spec :
    (∀ x y z : ℚ,
      axisComp (determine_axis (x, y, z)) (x, y, z) = max |x| (max |y| |z|) ∧
      (determine_axis (x, y, z) = UsdAxis.X ↔ |y| ≤ |x| ∧ |z| ≤ |x|) ∧
      (determine_axis (x, y, z) = UsdAxis.Y ↔
        ¬(|y| ≤ |x| ∧ |z| ≤ |x|) ∧ |x| ≤ |y| ∧ |z| ≤ |y|) ∧
      (determine_axis (x, y, z) = UsdAxis.Z ↔
        ¬(|y| ≤ |x| ∧ |z| ≤ |x|) ∧ ¬(|x| ≤ |y| ∧ |z| ≤ |y|))) ∧
    determine_axis (1 / 10, 9 / 10, 1 / 20) = UsdAxis.Y ∧
    determine_axis (0, 0, 1) = UsdAxis.Z := by
  have main : ∀ x y z : ℚ,
      axisComp (determine_axis (x, y, z)) (x, y, z) = max |x| (max |y| |z|) ∧
      (determine_axis (x, y, z) = UsdAxis.X ↔ |y| ≤ |x| ∧ |z| ≤ |x|) ∧
      (determine_axis (x, y, z) = UsdAxis.Y ↔
        ¬(|y| ≤ |x| ∧ |z| ≤ |x|) ∧ |x| ≤ |y| ∧ |z| ≤ |y|) ∧
      (determine_axis (x, y, z) = UsdAxis.Z ↔
        ¬(|y| ≤ |x| ∧ |z| ≤ |x|) ∧ ¬(|x| ≤ |y| ∧ |z| ≤ |y|)) := by
    intro x y z
    simp only [determine_axis, ge_iff_le]
    split_ifs with h1 h2
    · refine ⟨?_, ?_, ?_, ?_⟩
      · show |x| = max |x| (max |y| |z|)
        rw [max_eq_left (max_le h1.1 h1.2)]
      · simp [h1.1, h1.2]
      · simp [h1.1, h1.2]
      · simp [h1.1, h1.2]
    · refine ⟨?_, ?_, ?_, ?_⟩
      · show |y| = max |x| (max |y| |z|)
        rw [max_eq_left h2.2, max_eq_right h2.1]
      · simp [h1]
      · simp [h1, h2.1, h2.2]
      · simp [h1, h2.1, h2.2]
    · have hz : |x| ≤ |z| ∧ |y| ≤ |z| := by
        rw [not_and_or, not_le] at h1 h2
        rcases h1 with h1 | h1 <;> rcases h2 with h2 | h2 <;>
          constructor <;> linarith
      refine ⟨?_, ?_, ?_, ?_⟩
      · show |z| = max |x| (max |y| |z|)
        rw [max_eq_right hz.2, max_eq_right hz.1]
      · simp [h1]
      · simp [h1, h2]
      · simp [h1, h2]
  refine ⟨main, ?_, ?_⟩
  · have h1 : |(1:ℚ)/10| = 1/10 := abs_of_nonneg (by norm_num)
    have h2 : |(9:ℚ)/10| = 9/10 := abs_of_nonneg (by norm_num)
    have h3 : |(1:ℚ)/20| = 1/20 := abs_of_nonneg (by norm_num)
    rw [(main (1/10) (9/10) (1/20)).2.2.1]
    rw [h1, h2, h3]
    norm_num
  · rw [(main 0 0 1).2.2.2]
    simp only [abs_zero, abs_one]
    norm_num

/-- Witness for C7 (the theorem's inner characterization applied at the
claim's concrete axis): (0, 0, 1) snaps to Z. -/
theorem axis_snapping_witness : determine_axis (0, 0, 1) = UsdAxis.Z :=
  axis_snapping_spec.2.2

/-! ## Claim C3: joint limit emission -/

/-- Claim C3 (corrected).  Limit omission is decided on the value that would
be emitted: a revolute limit is first converted from radians to degrees and
the attribute is omitted exactly when the degree value's magnitude reaches
1e10 (so a radian limit as small as 1e9 is already omitted — see the
counterexample); a prismatic limit passes through unchanged and is omitted
exactly when its own magnitude reaches 1e10.  In particular a joint with
lower_limit = -1e16 emits no lower-limit attribute, for either joint type. -/
theorem limit_emission_threshold (l u : ℝ) :
    (|math_degrees l| < 10 ^ 10 → (revolute_limit_attrs l u).1 = some (math_degrees l)) ∧
    (10 ^ 10 ≤ |math_degrees l| → (revolute_limit_attrs l u).1 = none) ∧
    (|math_degrees u| < 10 ^ 10 → (revolute_limit_attrs l u).2 = some (math_degrees u)) ∧
    (10 ^ 10 ≤ |math_degrees u| → (revolute_limit_attrs l u).2 = none) ∧
    (|l| < 10 ^ 10 → (prismatic_limit_attrs l u).1 = some l) ∧
    (10 ^ 10 ≤ |l| → (prismatic_limit_attrs l u).1 = none) ∧
    (revolute_limit_attrs (-(10 ^ 16)) u).1 = none ∧
    (prismatic_limit_attrs (-(10 ^ 16)) u).1 = none := by
  have habs : |math_degrees (-(10 ^ 16) : ℝ)| = 10 ^ 16 * (180 / Real.pi) := by
    rw [math_degrees, abs_mul, abs_neg, abs_of_nonneg (by positivity : (0:ℝ) ≤ 10 ^ 16),
      abs_of_nonneg (by positivity : (0:ℝ) ≤ 180 / Real.pi)]
  have h45 : (45 : ℝ) ≤ 180 / Real.pi := by
    rw [le_div_iff₀ Real.pi_pos]
    nlinarith [Real.pi_le_four]
  refine ⟨fun h => ?_, fun h => ?_, fun h => ?_, fun h => ?_, fun h => ?_, fun h => ?_, ?_, ?_⟩
  · rw [revolute_limit_attrs]
    simp only
    rw [if_pos h]
  · rw [revolute_limit_attrs]
    simp only
    rw [if_neg (not_lt.2 h)]
  · rw [revolute_limit_attrs]
    simp only
    rw [if_pos h]
  · rw [revolute_limit_attrs]
    simp only
    rw [if_neg (not_lt.2 h)]
  · rw [prismatic_limit_attrs]
    simp only
    rw [if_pos h]
  · rw [prismatic_limit_attrs]
    simp only
    rw [if_neg (not_lt.2 h)]
  · rw [revolute_limit_attrs]
    simp only
    rw [if_neg (not_lt.2 (by rw [habs]; nlinarith [h45]))]
  · rw [prismatic_limit_attrs]
    simp only
    rw [if_neg (not_lt.2 (by rw [abs_neg, abs_of_nonneg (by positivity : (0:ℝ) ≤ 10 ^ 16)]; norm_num))]

/-- Witness for C3: a revolute limit of 1 radian is emitted as 180/π
degrees, and the default lower limit -1e16 is omitted. -/
theorem limit_emission_witness :
    (revolute_limit_attrs 1 0).1 = some (math_degrees 1) ∧
    (revolute_limit_attrs (-(10 ^ 16)) 0).1 = none := by
  constructor
  · apply (limit_emission_threshold 1 0).1
    rw [math_degrees, one_mul, abs_of_nonneg (by positivity : (0:ℝ) ≤ 180 / Real.pi)]
    rw [div_lt_iff₀ Real.pi_pos]
    nlinarith [Real.pi_gt_three]
  · exact (limit_emission_threshold (-(10 ^ 16)) 0).2.2.2.2.2.2.1

/-- Counterexample for C3 as stated: the revolute lower limit 1e9 radians
has magnitude below 1e10, so the claim says it is emitted (as its degree
value), yet the source omits it: the threshold is applied to the converted
degree value 1e9·180/π ≥ 1e10, not to the stored radian value. -/
theorem limit_radian_magnitude_counterexample :
    (revolute_limit_attrs (10 ^ 9) 0).1 = none ∧ |(10 ^ 9 : ℝ)| < 10 ^ 10 := by
  constructor
  · rw [revolute_limit_attrs]
    simp only
    rw [if_neg]
    push_neg
    rw [math_degrees, abs_mul, abs_of_nonneg (by positivity : (0:ℝ) ≤ 10 ^ 9),
      abs_of_nonneg (by positivity : (0:ℝ) ≤ 180 / Real.pi)]
    have h45 : (45 : ℝ) ≤ 180 / Real.pi := by
      rw [le_div_iff₀ Real.pi_pos]
      nlinarith [Real.pi_le_four]
    nlinarith [h45]
  · rw [abs_of_nonneg (by positivity : (0:ℝ) ≤ 10 ^ 9)]
    norm_num

/-! ## Claim C6: material dedup cache -/

theorem create_material_hit (looks : String) (st : MatBuilderState) (m : MatQ)
    (hint p : String) (h : assocFind (material_hash m) st.cache = some p) :
    create_material looks st m hint = (⟨p, false⟩, st) := by
  rw [create_material, h]

theorem create_material_preserves (looks : String) (st : MatBuilderState)
    (m : MatQ) (hint : String) (k : MatQ) (p : String)
    (h : assocFind k st.cache = some p) :
    assocFind k (create_material looks st m hint).2.cache = some p := by
  rw [create_material]
  cases hm : assocFind (material_hash m) st.cache with
  | some q => exact h
  | none =>
    have hne : material_hash m ≠ k := fun he => by rw [he, h] at hm; exact Option.noConfusion hm
    simp only [assocFind, if_neg hne]
    exact h

theorem run_materials_preserves (looks : String) (l : List (MatQ × String))
    (st : MatBuilderState) (k : MatQ) (p : String)
    (h : assocFind k st.cache = some p) :
    assocFind k (run_materials looks st l).2.cache = some p := by
  induction l generalizing st with
  | nil => exact h
  | cons e rest ih =>
    exact ih _ (create_material_preserves looks st e.1 e.2 k p h)

theorem create_material_caches (looks : String) (st : MatBuilderState) (m : MatQ)
    (hint : String) :
    assocFind (material_hash m) (create_material looks st m hint).2.cache =
      some (create_material looks st m hint).1.path := by
  rw [create_material]
  cases hm : assocFind (material_hash m) st.cache with
  | some q => exact hm
  | none => simp [assocFind]

/-- Claim C6 (corrected).  Sharing: two visuals whose material fields hash
identically — no matter how many other material creations happen in between —
receive the same material handle, and the later occurrence does not create
(it is a pure cache hit).  Distinctness: in the claim's three-visual
scenario, a third visual whose fields differ does trigger a creation, and its
handle is distinct PROVIDED its sanitized name hint differs from the first
visual's (the claim as stated is false without that proviso: the prim name is
derived from the visual's name, so two visuals with the same sanitized name
get the same path even for different materials — see the counterexample). -/
theorem material_cache_sharing :
    (∀ (looks : String) (st : MatBuilderState) (m₁ : MatQ) (h₁ : String)
        (mid : List (MatQ × String)) (m₂ : MatQ) (h₂ : String),
      material_hash m₁ = material_hash m₂ →
      (create_material looks (run_materials looks (create_material looks st m₁ h₁).2 mid).2
          m₂ h₂).1.path = (create_material looks st m₁ h₁).1.path ∧
      (create_material looks (run_materials looks (create_material looks st m₁ h₁).2 mid).2
          m₂ h₂).1.created = false) ∧
    (∀ (looks : String) (m m' : MatQ) (hA hB hC : String),
      material_hash m ≠ material_hash m' →
      hA ≠ "" → hC ≠ "" → sanitize_usd_name hA ≠ sanitize_usd_name hC →
      (create_material looks (create_material looks {} m hA).2 m hB).1.path
          = (create_material looks {} m hA).1.path ∧
      (create_material looks (create_material looks {} m hA).2 m hB).1.created = false ∧
      (create_material looks
        (create_material looks (create_material looks {} m hA).2 m hB).2 m' hC).1.created
          = true ∧
      (create_material looks
        (create_material looks (create_material looks {} m hA).2 m hB).2 m' hC).1.path
          ≠ (create_material looks {} m hA).1.path) := by
  constructor
  · intro looks st m₁ h₁ mid m₂ h₂ hk
    have h1 := create_material_caches looks st m₁ h₁
    rw [hk] at h1
    have h2 := run_materials_preserves looks mid _ _ _ h1
    rw [create_material_hit looks _ m₂ h₂ _ h2]
    exact ⟨rfl, rfl⟩
  · intro looks m m' hA hB hC hk hA' hC' hsan
    have e1 : create_material looks {} m hA =
        (⟨looks ++ "/" ++ sanitize_usd_name hA, true⟩,
         ⟨[(material_hash m, looks ++ "/" ++ sanitize_usd_name hA)], 1⟩) := by
      simp [create_material, assocFind, hA']
    have e2 : create_material looks (create_material looks {} m hA).2 m hB =
        (⟨looks ++ "/" ++ sanitize_usd_name hA, false⟩, (create_material looks {} m hA).2) := by
      refine create_material_hit looks _ m hB _ ?_
      rw [e1]
      simp [assocFind]
    have e3 : create_material looks
        (create_material looks (create_material looks {} m hA).2 m hB).2 m' hC =
        (⟨looks ++ "/" ++ sanitize_usd_name hC, true⟩,
         ⟨[(material_hash m', looks ++ "/" ++ sanitize_usd_name hC),
           (material_hash m, looks ++ "/" ++ sanitize_usd_name hA)], 2⟩) := by
      rw [e2, e1]
      simp only [create_material, assocFind]
      rw [if_neg hk]
      simp [hC']
    refine ⟨by rw [e2, e1], by rw [e2], by rw [e3], ?_⟩
    rw [e3, e1]
    intro hpath
    have hd := congrArg String.data hpath
    simp only [String.data_append] at hd
    exact hsan (String.ext (List.append_cancel_left hd)).symm

/-- Witness for C6: two calls with the red material (hints "a" and "b")
share one handle, the second being a pure cache hit. -/
theorem material_cache_sharing_witness :
    (create_material "/M/Looks"
      (run_materials "/M/Looks" (create_material "/M/Looks" {} matRed "a").2 []).2
      matRed "b").1.path = (create_material "/M/Looks" {} matRed "a").1.path ∧
    (create_material "/M/Looks"
      (run_materials "/M/Looks" (create_material "/M/Looks" {} matRed "a").2 []).2
      matRed "b").1.created = false :=
  material_cache_sharing.1 "/M/Looks" {} matRed "a" [] matRed "b" rfl

/-- Counterexample for C6 as stated: two visuals that differ in diffuse
color (red vs green) but share the sanitized name "v" receive the SAME
material handle `/M/Looks/v` — the second creation overwrites the same prim
path — so "a visual differing in any of those fields gets a distinct
material handle" fails without the distinct-name proviso. -/
theorem material_name_collision_counterexample :
    material_hash matRed ≠ material_hash matGreen ∧
    (create_material "/M/Looks" (create_material "/M/Looks" {} matRed "v").2
      matGreen "v").1.path = (create_material "/M/Looks" {} matRed "v").1.path ∧
    (create_material "/M/Looks" (create_material "/M/Looks" {} matRed "v").2
      matGreen "v").1.created = true := by
  refine ⟨by decide, by decide, by decide⟩

/-! ## Loader lemmas (claims C8 and C10) -/

theorem parseGeometry_char (md : String) (e : Xml) (g : SdfGeometry)
    (h : parseGeometry md e = .ok g) :
    g.mesh.isSome = (e.findChild "mesh").isSome ∧
    g.box.isSome = (!(e.findChild "mesh").isSome && (e.findChild "box").isSome) ∧
    g.cylinder.isSome = (!(e.findChild "mesh").isSome && !(e.findChild "box").isSome &&
      (e.findChild "cylinder").isSome) ∧
    g.sphere.isSome = (!(e.findChild "mesh").isSome && !(e.findChild "box").isSome &&
      !(e.findChild "cylinder").isSome && (e.findChild "sphere").isSome) ∧
    g.capsule.isSome = (!(e.findChild "mesh").isSome && !(e.findChild "box").isSome &&
      !(e.findChild "cylinder").isSome && !(e.findChild "sphere").isSome &&
      (e.findChild "capsule").isSome) ∧
    g.populated ≤ 1 ∧
    (g.populated = 0 ↔ e.findChild "mesh" = none ∧ e.findChild "box" = none ∧
      e.findChild "cylinder" = none ∧ e.findChild "sphere" = none ∧
      e.findChild "capsule" = none) := by
  rw [parseGeometry] at h
  cases hm : e.findChild "mesh" with
  | some me =>
    simp only [hm] at h
    cases hr : parseMeshGeom md me with
    | error er => simp only [hr] at h; cases h
    | ok mg =>
      simp only [hr] at h
      injection h with h2
      subst h2
      simp [hm, SdfGeometry.populated]
  | none =>
    simp only [hm] at h
    cases hb : e.findChild "box" with
    | some be =>
      simp only [hb] at h
      cases hr : parseBoxGeom be with
      | error er => simp only [hr] at h; cases h
      | ok bg =>
        simp only [hr] at h
        injection h with h2
        subst h2
        simp [hm, hb, SdfGeometry.populated]
    | none =>
      simp only [hb] at h
      cases hc : e.findChild "cylinder" with
      | some ce =>
        simp only [hc] at h
        cases hr : parseCylinderGeom ce with
        | error er => simp only [hr] at h; cases h
        | ok cg =>
          simp only [hr] at h
          injection h with h2
          subst h2
          simp [hm, hb, hc, SdfGeometry.populated]
      | none =>
        simp only [hc] at h
        cases hs : e.findChild "sphere" with
        | some se =>
          simp only [hs] at h
          cases hr : parseSphereGeom se with
          | error er => simp only [hr] at h; cases h
          | ok sg =>
            simp only [hr] at h
            injection h with h2
            subst h2
            simp [hm, hb, hc, hs, SdfGeometry.populated]
        | none =>
          simp only [hs] at h
          cases hcap : e.findChild "capsule" with
          | some cape =>
            simp only [hcap] at h
            cases hr : parseCapsuleGeom cape with
            | error er => simp only [hr] at h; cases h
            | ok capg =>
              simp only [hr] at h
              injection h with h2
              subst h2
              simp [hm, hb, hc, hs, hcap, SdfGeometry.populated]
          | none =>
            simp only [hcap] at h
            injection h with h2
            subst h2
            simp [hm, hb, hc, hs, hcap, SdfGeometry.populated]

theorem parseVisual_geometry (md : String) (e : Xml) (v : SdfVisual)
    (h : parseVisual md e = .ok v) :
    v.geometry.isSome = (e.findChild "geometry").isSome ∧
    ∀ g, v.geometry = some g → ∃ ge, e.findChild "geometry" = some ge ∧
      parseGeometry md ge = .ok g := by
  rw [parseVisual] at h
  cases hp : poseOr e with
  | error er => simp only [hp] at h; cases h
  | ok pose =>
    simp only [hp] at h
    cases hg : e.findChild "geometry" with
    | none =>
      simp only [hg] at h
      cases hmat : e.findChild "material" with
      | none =>
        simp only [hmat] at h
        injection h with h2
        subst h2
        simp
      | some me =>
        simp only [hmat] at h
        cases hpm : parseMaterial md me with
        | error er => simp only [hpm] at h; cases h
        | ok mat =>
          simp only [hpm] at h
          injection h with h2
          subst h2
          simp
    | some ge =>
      simp only [hg] at h
      cases hpg : parseGeometry md ge with
      | error er => simp only [hpg] at h; cases h
      | ok geom =>
        simp only [hpg] at h
        cases hmat : e.findChild "material" with
        | none =>
          simp only [hmat] at h
          injection h with h2
          subst h2
          refine ⟨by simp, fun g hgg => ?_⟩
          simp only at hgg
          injection hgg with h3
          subst h3
          exact ⟨ge, rfl, hpg⟩
        | some me =>
          simp only [hmat] at h
          cases hpm : parseMaterial md me with
          | error er => simp only [hpm] at h; cases h
          | ok mat =>
            simp only [hpm] at h
            injection h with h2
            subst h2
            refine ⟨by simp, fun g hgg => ?_⟩
            simp only at hgg
            injection hgg with h3
            subst h3
            exact ⟨ge, rfl, hpg⟩

theorem parseCollision_geometry (md : String) (e : Xml) (c : SdfCollision)
    (h : parseCollision md e = .ok c) :
    c.geometry.isSome = (e.findChild "geometry").isSome ∧
    ∀ g, c.geometry = some g → ∃ ge, e.findChild "geometry" = some ge ∧
      parseGeometry md ge = .ok g := by
  rw [parseCollision] at h
  cases hp : poseOr e with
  | error er => simp only [hp] at h; cases h
  | ok pose =>
    simp only [hp] at h
    cases hg : e.findChild "geometry" with
    | none =>
      simp only [hg] at h
      injection h with h2
      subst h2
      simp
    | some ge =>
      simp only [hg] at h
      cases hpg : parseGeometry md ge with
      | error er => simp only [hpg] at h; cases h
      | ok geom =>
        simp only [hpg] at h
        injection h with h2
        subst h2
        refine ⟨by simp, fun g hgg => ?_⟩
        simp only at hgg
        injection hgg with h3
        subst h3
        exact ⟨ge, rfl, hpg⟩

theorem parseVisualsList_mem (md : String) (es : List Xml) (vs : List SdfVisual)
    (h : parseVisualsList md es = .ok vs) :
    ∀ v ∈ vs, v.geometry.isSome = true ∧
      ∀ g, v.geometry = some g → ∃ ge, parseGeometry md ge = .ok g := by
  induction es generalizing vs with
  | nil =>
    rw [parseVisualsList] at h
    injection h with h2
    subst h2
    intro v hv
    cases hv
  | cons e rest ih =>
    rw [parseVisualsList] at h
    cases hv : parseVisual md e with
    | error er => simp only [hv] at h; cases h
    | ok v0 =>
      simp only [hv] at h
      cases hrest : parseVisualsList md rest with
      | error er => simp only [hrest] at h; cases h
      | ok vrest =>
        simp only [hrest] at h
        injection h with h2
        subst h2
        intro v hvmem
        by_cases hg : v0.geometry.isSome
        · rw [if_pos hg] at hvmem
          rcases List.mem_cons.1 hvmem with rfl | hvmem
          · refine ⟨hg, fun g hgg => ?_⟩
            obtain ⟨ge, _, hpg⟩ := (parseVisual_geometry md e v hv).2 g hgg
            exact ⟨ge, hpg⟩
          · exact ih vrest hrest v hvmem
        · rw [if_neg hg] at hvmem
          exact ih vrest hrest v hvmem

theorem parseCollisionsList_mem (md : String) (es : List Xml) (cs : List SdfCollision)
    (h : parseCollisionsList md es = .ok cs) :
    ∀ c ∈ cs, c.geometry.isSome = true ∧
      ∀ g, c.geometry = some g → ∃ ge, parseGeometry md ge = .ok g := by
  induction es generalizing cs with
  | nil =>
    rw [parseCollisionsList] at h
    injection h with h2
    subst h2
    intro c hc
    cases hc
  | cons e rest ih =>
    rw [parseCollisionsList] at h
    cases hc : parseCollision md e with
    | error er => simp only [hc] at h; cases h
    | ok c0 =>
      simp only [hc] at h
      cases hrest : parseCollisionsList md rest with
      | error er => simp only [hrest] at h; cases h
      | ok crest =>
        simp only [hrest] at h
        injection h with h2
        subst h2
        intro c hcmem
        by_cases hg : c0.geometry.isSome
        · rw [if_pos hg] at hcmem
          rcases List.mem_cons.1 hcmem with rfl | hcmem
          · refine ⟨hg, fun g hgg => ?_⟩
            obtain ⟨ge, _, hpg⟩ := (parseCollision_geometry md e c hc).2 g hgg
            exact ⟨ge, hpg⟩
          · exact ih crest hrest c hcmem
        · rw [if_neg hg] at hcmem
          exact ih crest hrest c hcmem

theorem parseVisualsList_length (md : String) (es : List Xml) (vs : List SdfVisual)
    (h : parseVisualsList md es = .ok vs) :
    vs.length = (es.filter fun ve => (ve.findChild "geometry").isSome).length := by
  induction es generalizing vs with
  | nil =>
    rw [parseVisualsList] at h
    injection h with h2
    subst h2
    rfl
  | cons e rest ih =>
    rw [parseVisualsList] at h
    cases hv : parseVisual md e with
    | error er => simp only [hv] at h; cases h
    | ok v0 =>
      simp only [hv] at h
      cases hrest : parseVisualsList md rest with
      | error er => simp only [hrest] at h; cases h
      | ok vrest =>
        simp only [hrest] at h
        injection h with h2
        subst h2
        have hiff := (parseVisual_geometry md e v0 hv).1
        rw [List.filter_cons]
        by_cases hg : v0.geometry.isSome
        · rw [if_pos hg, ← hiff, hg, if_pos rfl]
          simp [ih vrest hrest]
        · rw [if_neg hg, ← hiff]
          have : v0.geometry.isSome = false := by
            cases hgg : v0.geometry.isSome
            · rfl
            · exact absurd hgg hg
          rw [this]
          simp only [Bool.false_eq_true, if_neg (by simp : ¬False)]
          exact ih vrest hrest

theorem parseCollisionsList_length (md : String) (es : List Xml) (cs : List SdfCollision)
    (h : parseCollisionsList md es = .ok cs) :
    cs.length = (es.filter fun ce => (ce.findChild "geometry").isSome).length := by
  induction es generalizing cs with
  | nil =>
    rw [parseCollisionsList] at h
    injection h with h2
    subst h2
    rfl
  | cons e rest ih =>
    rw [parseCollisionsList] at h
    cases hc : parseCollision md e with
    | error er => simp only [hc] at h; cases h
    | ok c0 =>
      simp only [hc] at h
      cases hrest : parseCollisionsList md rest with
      | error er => simp only [hrest] at h; cases h
      | ok crest =>
        simp only [hrest] at h
        injection h with h2
        subst h2
        have hiff := (parseCollision_geometry md e c0 hc).1
        rw [List.filter_cons]
        by_cases hg : c0.geometry.isSome
        · rw [if_pos hg, ← hiff, hg, if_pos rfl]
          simp [ih crest hrest]
        · rw [if_neg hg, ← hiff]
          have : c0.geometry.isSome = false := by
            cases hgg : c0.geometry.isSome
            · rfl
            · exact absurd hgg hg
          rw [this]
          simp only [Bool.false_eq_true, if_neg (by simp : ¬False)]
          exact ih crest hrest

theorem parseLink_parts (md : String) (e : Xml) (l : SdfLink)
    (h : parseLink md e = .ok l) :
    parseVisualsList md (e.findAll "visual") = .ok l.visuals ∧
    parseCollisionsList md (e.findAll "collision") = .ok l.collisions := by
  rw [parseLink] at h
  cases hp : poseOr e with
  | error er => simp only [hp] at h; cases h
  | ok pose =>
    simp only [hp] at h
    cases hi : e.findChild "inertial" with
    | some ie =>
      simp only [hi] at h
      cases hpi : parseInertial ie with
      | error er => simp only [hpi] at h; cases h
      | ok inertial =>
        simp only [hpi] at h
        cases hvs : parseVisualsList md (e.findAll "visual") with
        | error er => simp only [hvs] at h; cases h
        | ok vs =>
          simp only [hvs] at h
          cases hcs : parseCollisionsList md (e.findAll "collision") with
          | error er => simp only [hcs] at h; cases h
          | ok cs =>
            simp only [hcs] at h
            injection h with h2
            subst h2
            exact ⟨by simpa using hvs, by simpa using hcs⟩
    | none =>
      simp only [hi] at h
      cases hvs : parseVisualsList md (e.findAll "visual") with
      | error er => simp only [hvs] at h; cases h
      | ok vs =>
        simp only [hvs] at h
        cases hcs : parseCollisionsList md (e.findAll "collision") with
        | error er => simp only [hcs] at h; cases h
        | ok cs =>
          simp only [hcs] at h
          injection h with h2
          subst h2
          exact ⟨by simpa using hvs, by simpa using hcs⟩

theorem parseLinksList_mem (md : String) (es : List Xml) (ls : List SdfLink)
    (h : parseLinksList md es = .ok ls) :
    ∀ l ∈ ls, ∃ e ∈ es, parseLink md e = .ok l := by
  induction es generalizing ls with
  | nil =>
    rw [parseLinksList] at h
    injection h with h2
    subst h2
    intro l hl
    cases hl
  | cons e rest ih =>
    rw [parseLinksList] at h
    cases hl : parseLink md e with
    | error er => simp only [hl] at h; cases h
    | ok l0 =>
      simp only [hl] at h
      cases hrest : parseLinksList md rest with
      | error er => simp only [hrest] at h; cases h
      | ok lrest =>
        simp only [hrest] at h
        injection h with h2
        subst h2
        intro l hlmem
        rcases List.mem_cons.1 hlmem with rfl | hlmem
        · exact ⟨e, List.mem_cons_self e rest, hl⟩
        · obtain ⟨e', he', hpe'⟩ := ih lrest hrest l hlmem
          exact ⟨e', List.mem_cons_of_mem e he', hpe'⟩

theorem parseModel_links (md : String) (t : Xml) (m : SdfModel)
    (h : parseModel md t = .ok m) :
    parseLinksList md (t.findAll "link") = .ok m.links := by
  rw [parseModel] at h
  cases hp : poseOr t with
  | error er => simp only [hp] at h; cases h
  | ok pose =>
    simp only [hp] at h
    cases hls : parseLinksList md (t.findAll "link") with
    | error er => simp only [hls] at h; cases h
    | ok ls =>
      simp only [hls] at h
      cases hjs : parseJointsList (t.findAll "joint") with
      | error er => simp only [hjs] at h; cases h
      | ok js =>
        simp only [hjs] at h
        injection h with h2
        subst h2
        simpa using hls

/-! ## Claim C8: geometry variant count and priority -/

/-- Claim C8 (corrected).  Every Geometry present in a loaded model has AT
MOST one populated variant, and the loader honors only the highest-priority
shape in the fixed order mesh > box > cylinder > sphere > capsule.  "Exactly
one" fails: a geometry element with no recognized shape child parses to a
Geometry with ZERO populated variants, and such a visual is kept in the model
(see the counterexample). -/
theorem geometry_at_most_one_variant :
    (∀ (md : String) (t : Xml) (m : SdfModel), parseModel md t = .ok m →
      ∀ l ∈ m.links,
        (∀ v ∈ l.visuals, ∀ g, v.geometry = some g → g.populated ≤ 1) ∧
        (∀ c ∈ l.collisions, ∀ g, c.geometry = some g → g.populated ≤ 1)) ∧
    (∀ (md : String) (e : Xml) (g : SdfGeometry), parseGeometry md e = .ok g →
      g.mesh.isSome = (e.findChild "mesh").isSome ∧
      g.box.isSome = (!(e.findChild "mesh").isSome && (e.findChild "box").isSome) ∧
      g.cylinder.isSome = (!(e.findChild "mesh").isSome && !(e.findChild "box").isSome &&
        (e.findChild "cylinder").isSome) ∧
      g.sphere.isSome = (!(e.findChild "mesh").isSome && !(e.findChild "box").isSome &&
        !(e.findChild "cylinder").isSome && (e.findChild "sphere").isSome) ∧
      g.capsule.isSome = (!(e.findChild "mesh").isSome && !(e.findChild "box").isSome &&
        !(e.findChild "cylinder").isSome && !(e.findChild "sphere").isSome &&
        (e.findChild "capsule").isSome) ∧
      g.populated ≤ 1 ∧
      (g.populated = 0 ↔ e.findChild "mesh" = none ∧ e.findChild "box" = none ∧
        e.findChild "cylinder" = none ∧ e.findChild "sphere" = none ∧
        e.findChild "capsule" = none)) := by
  refine ⟨?_, parseGeometry_char⟩
  intro md t m hm l hl
  obtain ⟨e, _, hle⟩ := parseLinksList_mem md _ _ (parseModel_links md t m hm) l hl
  obtain ⟨hvs, hcs⟩ := parseLink_parts md e l hle
  constructor
  · intro v hv g hg
    obtain ⟨ge, hpg⟩ := (parseVisualsList_mem md _ _ hvs v hv).2 g hg
    exact (parseGeometry_char md ge g hpg).2.2.2.2.2.1
  · intro c hc g hg
    obtain ⟨ge, hpg⟩ := (parseCollisionsList_mem md _ _ hcs c hc).2 g hg
    exact (parseGeometry_char md ge g hpg).2.2.2.2.2.1

/-- Witness for C8: on a geometry element holding both a box and a cylinder
the loader honors only the box (the higher-priority shape), and the result
has exactly one populated variant. -/
theorem geometry_variant_witness :
    (parseGeometry "/d" cexXmlBoxCyl).toOption.map
        (fun g => (g.box.isSome, g.cylinder.isSome, g.populated)) =
      some (true, false, 1) := by
  obtain ⟨g0, hg⟩ : ∃ g, parseGeometry "/d" cexXmlBoxCyl = .ok g := ⟨_, rfl⟩
  have hchar := geometry_at_most_one_variant.2 "/d" cexXmlBoxCyl g0 hg
  rw [hg]
  simp only [Except.toOption, Option.map]
  have hbox : g0.box.isSome = true := by
    rw [hchar.2.1]
    decide
  have hcyl : g0.cylinder.isSome = false := by
    rw [hchar.2.2.1]
    decide
  have hpop1 : g0.populated ≤ 1 := hchar.2.2.2.2.2.1
  have hpop0 : g0.populated ≠ 0 := by
    intro h0
    have hnone := (hchar.2.2.2.2.2.2.1 h0).2.1
    have hsome : (cexXmlBoxCyl.findChild "box").isSome = true := by decide
    rw [hnone] at hsome
    cases hsome
  have hpop : g0.populated = 1 := by omega
  rw [hbox, hcyl, hpop]

/-- Counterexample for C8 as stated: a visual whose geometry element has no
shape child is loaded into the model with a Geometry having ZERO populated
variants, so "exactly one of its five variants is populated" fails for a
Geometry present in a loaded Model. -/
theorem geometry_empty_counterexample :
    (parseModel "/d" cexXmlEmptyGeom).toOption.map
        (fun m => m.links.map fun l => l.visuals.map fun v =>
          v.geometry.map SdfGeometry.populated) =
      some [[some 0]] := by
  decide

/-! ## Claim C10: loader omits geometry-less visuals and collisions -/

/-- Claim C10 (confirmed).  Every Visual and every Collision in a loaded
Model has a non-None Geometry, and `_parse_link` keeps exactly the visual
(resp. collision) children that have a `geometry` child element — the others
are silently omitted. -/
theorem loader_omits_geometryless_items :
    (∀ (md : String) (t : Xml) (m : SdfModel), parseModel md t = .ok m →
      ∀ l ∈ m.links,
        (∀ v ∈ l.visuals, v.geometry.isSome = true) ∧
        (∀ c ∈ l.collisions, c.geometry.isSome = true)) ∧
    (∀ (md : String) (e : Xml) (l : SdfLink), parseLink md e = .ok l →
      l.visuals.length =
        ((e.findAll "visual").filter fun ve => (ve.findChild "geometry").isSome).length ∧
      l.collisions.length =
        ((e.findAll "collision").filter fun ce => (ce.findChild "geometry").isSome).length) := by
  constructor
  · intro md t m hm l hl
    obtain ⟨e, _, hle⟩ := parseLinksList_mem md _ _ (parseModel_links md t m hm) l hl
    obtain ⟨hvs, hcs⟩ := parseLink_parts md e l hle
    exact ⟨fun v hv => (parseVisualsList_mem md _ _ hvs v hv).1,
           fun c hc => (parseCollisionsList_mem md _ _ hcs c hc).1⟩
  · intro md e l hle
    obtain ⟨hvs, hcs⟩ := parseLink_parts md e l hle
    exact ⟨parseVisualsList_length md _ _ hvs, parseCollisionsList_length md _ _ hcs⟩

/-- Witness for C10: on a link with one visual that has a geometry child and
one that does not, exactly one visual is loaded. -/
theorem loader_omits_witness :
    (parseLink "/d" cexXmlLink).toOption.map (fun l => l.visuals.length) = some 1 := by
  obtain ⟨l0, hl⟩ : ∃ l, parseLink "/d" cexXmlLink = .ok l := ⟨_, rfl⟩
  have h2 := (loader_omits_geometryless_items.2 "/d" cexXmlLink l0 hl).1
  rw [hl]
  simp only [Except.toOption, Option.map]
  rw [h2]
  decide

/-! ## Sorting and counting lemmas (claims C1 and C9) -/

theorem charListLe_total (a b : List Char) :
    charListLe a b = true ∨ charListLe b a = true := by
  induction a generalizing b with
  | nil => exact Or.inl rfl
  | cons x xs ih =>
    cases b with
    | nil => exact Or.inr rfl
    | cons y ys =>
      rcases lt_trichotomy x y with h | h | h
      · exact Or.inl (by simp [charListLe, h])
      · subst h
        rcases ih ys with h2 | h2
        · exact Or.inl (by simp [charListLe, lt_irrefl, h2])
        · exact Or.inr (by simp [charListLe, lt_irrefl, h2])
      · exact Or.inr (by simp [charListLe, h])

theorem charListLe_trans (a b c : List Char) (h1 : charListLe a b = true)
    (h2 : charListLe b c = true) : charListLe a c = true := by
  induction a generalizing b c with
  | nil => rfl
  | cons x xs ih =>
    cases b with
    | nil => exact absurd h1 (by simp [charListLe])
    | cons y ys =>
      cases c with
      | nil => exact absurd h2 (by simp [charListLe])
      | cons z zs =>
        rw [charListLe] at h1 h2 ⊢
        rcases lt_trichotomy x y with hxy | hxy | hxy
        · rcases lt_trichotomy y z with hyz | hyz | hyz
          · rw [if_pos (lt_trans hxy hyz)]
          · subst hyz
            rw [if_pos hxy]
          · rw [if_neg (asymm hyz), if_pos hyz] at h2
            cases h2
        · subst hxy
          rcases lt_trichotomy x z with hxz | hxz | hxz
          · rw [if_pos hxz]
          · subst hxz
            rw [if_neg (lt_irrefl x), if_neg (lt_irrefl x)] at h1 h2 ⊢
            exact ih ys zs h1 h2
          · rw [if_neg (asymm hxz), if_pos hxz] at h2
            cases h2
        · rw [if_neg (asymm hxy), if_pos hxy] at h1
          cases h1

theorem strLe_total (s t : String) : strLe s t ∨ strLe t s :=
  charListLe_total s.toList t.toList

theorem strLe_trans (s t x : String) (h1 : strLe s t) (h2 : strLe t x) : strLe s x :=
  charListLe_trans s.toList t.toList x.toList h1 h2

theorem insertSorted_perm (s : String) (l : List String) :
    List.Perm (insertSorted s l) (s :: l) := by
  induction l with
  | nil => exact List.Perm.refl _
  | cons t ts ih =>
    rw [insertSorted]
    by_cases h : strLeB s t = true
    · rw [if_pos h]
    · rw [if_neg h]
      exact (List.Perm.cons t ih).trans (List.Perm.swap s t ts)

theorem isort_perm (l : List String) : List.Perm (isort l) l := by
  induction l with
  | nil => exact List.Perm.refl _
  | cons s ss ih =>
    exact (insertSorted_perm s (isort ss)).trans (List.Perm.cons s ih)

theorem insertSorted_pairwise (s : String) (l : List String)
    (h : l.Pairwise strLe) : (insertSorted s l).Pairwise strLe := by
  induction l with
  | nil => exact List.pairwise_singleton strLe s
  | cons t ts ih =>
    rw [insertSorted]
    rcases List.pairwise_cons.1 h with ⟨ht, hts⟩
    by_cases hst : strLeB s t = true
    · rw [if_pos hst]
      refine List.pairwise_cons.2 ⟨?_, h⟩
      intro x hx
      rcases List.mem_cons.1 hx with rfl | hx
      · exact hst
      · exact strLe_trans s t x hst (ht x hx)
    · rw [if_neg hst]
      refine List.pairwise_cons.2 ⟨?_, ih hts⟩
      intro x hx
      have hx2 := (insertSorted_perm s ts).mem_iff.1 hx
      rcases List.mem_cons.1 hx2 with rfl | hx2
      · rcases strLe_total x t with hh | hh
        · exact absurd hh hst
        · exact hh
      · exact ht x hx2

theorem isort_pairwise (l : List String) : (isort l).Pairwise strLe := by
  induction l with
  | nil => exact List.Pairwise.nil
  | cons s ss ih => exact insertSorted_pairwise s (isort ss) ih

theorem mem_unique_sorted_paths (m : SdfModel) (ic : Bool) (q : String) :
    q ∈ unique_sorted_paths m ic ↔ q ∈ collectMeshPaths m ic := by
  rw [unique_sorted_paths, (isort_perm _).mem_iff, List.mem_dedup]

theorem countP_append (p : String) (l1 l2 : List String) :
    countP p (l1 ++ l2) = countP p l1 + countP p l2 := by
  simp [countP, List.filter_append]

theorem countP_one (p : String) : countP p [p] = 1 := by simp [countP]

theorem countP_other (p q : String) (h : q ≠ p) : countP p [q] = 0 := by
  simp [countP, h]

/-! ## Mesh converter cache lemmas (claims C1 and C9) -/

theorem mesh_convert_hit (env : FsEnv) (outDir : String) (st : MeshConvSt)
    (p u : String) (hex : env.fsExists p = true)
    (hc : assocFind p st.cache = some u) :
    mesh_convert env outDir st p = (.ok u, st) := by
  rw [mesh_convert, if_neg (by simp [hex] : ¬((!env.fsExists p) = true))]
  simp only [hc]

theorem mesh_convert_first (env : FsEnv) (outDir : String) (st : MeshConvSt)
    (p : String) (hex : env.fsExists p = true)
    (hc : assocFind p st.cache = none)
    (hsup : SUPPORTED_MESH_FORMATS.contains (lowerStr (extnameOf p)) = true)
    (hok : env.convOk p = true) :
    ∃ u, mesh_convert env outDir st p =
      (.ok u, { cache := (p, u) :: st.cache, conv_events := st.conv_events ++ [p] }) := by
  refine ⟨freshUsdPath (os_path_join outDir "meshes") (stemOf p)
    (st.cache.map fun e => e.2), ?_⟩
  rw [mesh_convert, if_neg (by simp [hex] : ¬((!env.fsExists p) = true))]
  simp only [hc]
  rw [if_neg (by simpa using hsup :
    ¬((!SUPPORTED_MESH_FORMATS.contains (lowerStr (extnameOf p))) = true))]
  rw [if_pos hok]

theorem mesh_convert_preserves (env : FsEnv) (outDir : String) (st : MeshConvSt)
    (q p u : String) (hc : assocFind p st.cache = some u) :
    assocFind p (mesh_convert env outDir st q).2.cache = some u ∧
    countP p (mesh_convert env outDir st q).2.conv_events = countP p st.conv_events := by
  rw [mesh_convert]
  by_cases hexq : env.fsExists q = true
  · rw [if_neg (by simp [hexq] : ¬((!env.fsExists q) = true))]
    cases hcq : assocFind q st.cache with
    | some usd => exact ⟨hc, rfl⟩
    | none =>
      have hq : q ≠ p := by
        intro he
        rw [he, hc] at hcq
        cases hcq
      by_cases hsupq : SUPPORTED_MESH_FORMATS.contains (lowerStr (extnameOf q)) = true
      · rw [if_neg (by simpa using hsupq :
          ¬((!SUPPORTED_MESH_FORMATS.contains (lowerStr (extnameOf q))) = true))]
        by_cases hokq : env.convOk q = true
        · rw [if_pos hokq]
          refine ⟨?_, ?_⟩
          · simp only [assocFind, if_neg hq]
            exact hc
          · simp [countP_append, countP_other p q hq]
        · rw [if_neg hokq]
          exact ⟨hc, by simp [countP_append, countP_other p q hq]⟩
      · rw [if_pos (by simpa using hsupq)]
        exact ⟨hc, rfl⟩
  · rw [if_pos (by simp [hexq])]
    exact ⟨hc, rfl⟩

theorem mesh_convert_untouched (env : FsEnv) (outDir : String) (st : MeshConvSt)
    (q p : String) (hq : q ≠ p) (hc : assocFind p st.cache = none) :
    assocFind p (mesh_convert env outDir st q).2.cache = none ∧
    countP p (mesh_convert env outDir st q).2.conv_events = countP p st.conv_events := by
  rw [mesh_convert]
  by_cases hexq : env.fsExists q = true
  · rw [if_neg (by simp [hexq] : ¬((!env.fsExists q) = true))]
    cases hcq : assocFind q st.cache with
    | some usd => exact ⟨hc, rfl⟩
    | none =>
      by_cases hsupq : SUPPORTED_MESH_FORMATS.contains (lowerStr (extnameOf q)) = true
      · rw [if_neg (by simpa using hsupq :
          ¬((!SUPPORTED_MESH_FORMATS.contains (lowerStr (extnameOf q))) = true))]
        by_cases hokq : env.convOk q = true
        · rw [if_pos hokq]
          refine ⟨?_, ?_⟩
          · simp only [assocFind, if_neg hq]
            exact hc
          · simp [countP_append, countP_other p q hq]
        · rw [if_neg hokq]
          exact ⟨hc, by simp [countP_append, countP_other p q hq]⟩
      · rw [if_pos (by simpa using hsupq)]
        exact ⟨hc, rfl⟩
  · rw [if_pos (by simp [hexq])]
    exact ⟨hc, rfl⟩

theorem pre_convert_preserves (env : FsEnv) (outDir : String) (p u : String) :
    ∀ (ps : List String) (st : MeshConvSt), assocFind p st.cache = some u →
      assocFind p (pre_convert env outDir st ps).1.cache = some u ∧
      countP p (pre_convert env outDir st ps).1.conv_events = countP p st.conv_events := by
  intro ps
  induction ps with
  | nil => exact fun st hc => ⟨hc, rfl⟩
  | cons q qs ih =>
    intro st hc
    rw [pre_convert]
    by_cases hexq : env.fsExists q = true
    · rw [if_pos hexq]
      obtain ⟨hp', hcnt'⟩ := mesh_convert_preserves env outDir st q p u hc
      rcases hmc : mesh_convert env outDir st q with ⟨res, st'⟩
      rw [hmc] at hp' hcnt'
      cases res with
      | ok v =>
        obtain ⟨h1, h2⟩ := ih st' hp'
        exact ⟨h1, h2.trans hcnt'⟩
      | error v =>
        obtain ⟨h1, h2⟩ := ih st' hp'
        exact ⟨h1, h2.trans hcnt'⟩
    · rw [if_neg hexq]
      exact ih st hc

theorem pre_convert_establishes (env : FsEnv) (outDir : String) (p : String)
    (hex : env.fsExists p = true)
    (hsup : SUPPORTED_MESH_FORMATS.contains (lowerStr (extnameOf p)) = true)
    (hok : env.convOk p = true) :
    ∀ (ps : List String) (st : MeshConvSt), p ∈ ps →
      assocFind p st.cache = none → countP p st.conv_events = 0 →
      ∃ u, assocFind p (pre_convert env outDir st ps).1.cache = some u ∧
        countP p (pre_convert env outDir st ps).1.conv_events = 1 := by
  intro ps
  induction ps with
  | nil =>
    intro st hmem
    cases hmem
  | cons q qs ih =>
    intro st hmem hc hcnt
    rw [pre_convert]
    by_cases hqp : q = p
    · subst hqp
      rw [if_pos hex]
      obtain ⟨u, hmc⟩ := mesh_convert_first env outDir st q hex hc hsup hok
      rw [hmc]
      have h1 : assocFind q ((q, u) :: st.cache) = some u := by simp [assocFind]
      have h2 : countP q (st.conv_events ++ [q]) = 1 := by
        rw [countP_append, hcnt, countP_one]
      obtain ⟨hp', hcnt'⟩ := pre_convert_preserves env outDir q u qs
        { cache := (q, u) :: st.cache, conv_events := st.conv_events ++ [q] } h1
      exact ⟨u, hp', by rw [hcnt', h2]⟩
    · have hmem' : p ∈ qs := by
        rcases List.mem_cons.1 hmem with h | h
        · exact absurd h.symm hqp
        · exact h
      by_cases hexq : env.fsExists q = true
      · rw [if_pos hexq]
        obtain ⟨h1, h2⟩ := mesh_convert_untouched env outDir st q p hqp hc
        rcases hmc : mesh_convert env outDir st q with ⟨res, st'⟩
        rw [hmc] at h1 h2
        cases res with
        | ok v => exact ih st' hmem' h1 (h2.trans hcnt)
        | error v => exact ih st' hmem' h1 (h2.trans hcnt)
      · rw [if_neg hexq]
        exact ih st hmem' hc hcnt

theorem build_mesh_reference_preserves (env : FsEnv) (outDir : String) (p u : String)
    (mg : SdfMeshGeometry) (st : MeshConvSt) (hc : assocFind p st.cache = some u) :
    assocFind p (build_mesh_reference env outDir st mg).2.cache = some u ∧
    countP p (build_mesh_reference env outDir st mg).2.conv_events =
      countP p st.conv_events := by
  rw [build_mesh_reference]
  by_cases hskip : (decide (mg.resolved_path = "") || !env.fsExists mg.resolved_path) = true
  · rw [if_pos hskip]
    exact ⟨hc, rfl⟩
  · rw [if_neg hskip]
    obtain ⟨h1, h2⟩ := mesh_convert_preserves env outDir st mg.resolved_path p u hc
    rcases hmc : mesh_convert env outDir st mg.resolved_path with ⟨res, st'⟩
    rw [hmc] at h1 h2
    cases res with
    | ok v => exact ⟨h1, h2⟩
    | error v => exact ⟨h1, h2⟩

theorem build_visual_mesh_preserves (env : FsEnv) (outDir : String) (p u : String)
    (v : SdfVisual) (st : MeshConvSt) (hc : assocFind p st.cache = some u) :
    assocFind p (build_visual_mesh env outDir st v).2.cache = some u ∧
    countP p (build_visual_mesh env outDir st v).2.conv_events =
      countP p st.conv_events := by
  obtain ⟨nm, ps, geom, mat⟩ := v
  cases geom with
  | none => exact ⟨hc, rfl⟩
  | some g =>
    obtain ⟨gm, gb, gc, gs, gcap⟩ := g
    cases gm with
    | none => exact ⟨hc, rfl⟩
    | some mg =>
      simp only [build_visual_mesh]
      exact build_mesh_reference_preserves env outDir p u mg st hc

theorem build_collision_mesh_preserves (env : FsEnv) (outDir : String) (p u : String)
    (c : SdfCollision) (st : MeshConvSt) (hc : assocFind p st.cache = some u) :
    assocFind p (build_collision_mesh env outDir st c).2.cache = some u ∧
    countP p (build_collision_mesh env outDir st c).2.conv_events =
      countP p st.conv_events := by
  obtain ⟨nm, ps, geom⟩ := c
  cases geom with
  | none => exact ⟨hc, rfl⟩
  | some g =>
    obtain ⟨gm, gb, gc, gs, gcap⟩ := g
    cases gm with
    | none => exact ⟨hc, rfl⟩
    | some mg =>
      simp only [build_collision_mesh]
      exact build_mesh_reference_preserves env outDir p u mg st hc

theorem build_visual_mesh_artifact (env : FsEnv) (outDir : String) (p u : String)
    (hex : env.fsExists p = true) (hne : p ≠ "") (v : SdfVisual) (st : MeshConvSt)
    (hc : assocFind p st.cache = some u) (hv : visualMeshPath v = some p) :
    build_visual_mesh env outDir st v = (some u, st) := by
  obtain ⟨nm, ps, geom, mat⟩ := v
  cases geom with
  | none => simp [visualMeshPath] at hv
  | some g =>
    obtain ⟨gm, gb, gc, gs, gcap⟩ := g
    cases gm with
    | none => simp [visualMeshPath] at hv
    | some mg =>
      simp only [visualMeshPath] at hv
      injection hv with hpath
      simp only [build_visual_mesh]
      rw [build_mesh_reference,
        if_neg (by simp [hpath, hex, hne] :
          ¬((decide (mg.resolved_path = "") || !env.fsExists mg.resolved_path) = true)),
        hpath, mesh_convert_hit env outDir st p u hex hc]

theorem build_collision_mesh_artifact (env : FsEnv) (outDir : String) (p u : String)
    (hex : env.fsExists p = true) (hne : p ≠ "") (c : SdfCollision) (st : MeshConvSt)
    (hc : assocFind p st.cache = some u) (hv : collisionMeshPath c = some p) :
    build_collision_mesh env outDir st c = (some u, st) := by
  obtain ⟨nm, ps, geom⟩ := c
  cases geom with
  | none => simp [collisionMeshPath] at hv
  | some g =>
    obtain ⟨gm, gb, gc, gs, gcap⟩ := g
    cases gm with
    | none => simp [collisionMeshPath] at hv
    | some mg =>
      simp only [collisionMeshPath] at hv
      injection hv with hpath
      simp only [build_collision_mesh]
      rw [build_mesh_reference,
        if_neg (by simp [hpath, hex, hne] :
          ¬((decide (mg.resolved_path = "") || !env.fsExists mg.resolved_path) = true)),
        hpath, mesh_convert_hit env outDir st p u hex hc]

theorem build_visuals_spec (env : FsEnv) (outDir : String) (p u : String)
    (hex : env.fsExists p = true) (hne : p ≠ "") :
    ∀ (vs : List SdfVisual) (st : MeshConvSt), assocFind p st.cache = some u →
      assocFind p (build_visuals env outDir st vs).2.cache = some u ∧
      countP p (build_visuals env outDir st vs).2.conv_events = countP p st.conv_events ∧
      ∀ pr ∈ (build_visuals env outDir st vs).1,
        visualMeshPath pr.1 = some p → pr.2 = some u := by
  intro vs
  induction vs with
  | nil =>
    intro st hc
    exact ⟨hc, rfl, fun pr hpr => absurd hpr (List.not_mem_nil pr)⟩
  | cons v vs' ih =>
    intro st hc
    rw [build_visuals]
    by_cases hv : visualMeshPath v = some p
    · rw [build_visual_mesh_artifact env outDir p u hex hne v st hc hv]
      obtain ⟨h1, h2, h3⟩ := ih st hc
      refine ⟨h1, h2, ?_⟩
      intro pr hpr hppr
      rcases List.mem_cons.1 hpr with rfl | hpr
      · rfl
      · exact h3 pr hpr hppr
    · obtain ⟨hp', hcnt'⟩ := build_visual_mesh_preserves env outDir p u v st hc
      rcases hbm : build_visual_mesh env outDir st v with ⟨a, st'⟩
      rw [hbm] at hp' hcnt'
      obtain ⟨h1, h2, h3⟩ := ih st' hp'
      refine ⟨h1, h2.trans hcnt', ?_⟩
      intro pr hpr hppr
      rcases List.mem_cons.1 hpr with rfl | hpr
      · exact absurd hppr hv
      · exact h3 pr hpr hppr

theorem build_collisions_spec (env : FsEnv) (outDir : String) (p u : String)
    (hex : env.fsExists p = true) (hne : p ≠ "") :
    ∀ (cs : List SdfCollision) (st : MeshConvSt), assocFind p st.cache = some u →
      assocFind p (build_collisions env outDir st cs).2.cache = some u ∧
      countP p (build_collisions env outDir st cs).2.conv_events = countP p st.conv_events ∧
      ∀ pr ∈ (build_collisions env outDir st cs).1,
        collisionMeshPath pr.1 = some p → pr.2 = some u := by
  intro cs
  induction cs with
  | nil =>
    intro st hc
    exact ⟨hc, rfl, fun pr hpr => absurd hpr (List.not_mem_nil pr)⟩
  | cons c cs' ih =>
    intro st hc
    rw [build_collisions]
    by_cases hv : collisionMeshPath c = some p
    · rw [build_collision_mesh_artifact env outDir p u hex hne c st hc hv]
      obtain ⟨h1, h2, h3⟩ := ih st hc
      refine ⟨h1, h2, ?_⟩
      intro pr hpr hppr
      rcases List.mem_cons.1 hpr with rfl | hpr
      · rfl
      · exact h3 pr hpr hppr
    · obtain ⟨hp', hcnt'⟩ := build_collision_mesh_preserves env outDir p u c st hc
      rcases hbm : build_collision_mesh env outDir st c with ⟨a, st'⟩
      rw [hbm] at hp' hcnt'
      obtain ⟨h1, h2, h3⟩ := ih st' hp'
      refine ⟨h1, h2.trans hcnt', ?_⟩
      intro pr hpr hppr
      rcases List.mem_cons.1 hpr with rfl | hpr
      · exact absurd hppr hv
      · exact h3 pr hpr hppr

theorem build_links_spec (env : FsEnv) (outDir : String) (ic : Bool) (p u : String)
    (hex : env.fsExists p = true) (hne : p ≠ "") :
    ∀ (ls : List SdfLink) (st : MeshConvSt), assocFind p st.cache = some u →
      assocFind p (build_links env outDir ic st ls).2.cache = some u ∧
      countP p (build_links env outDir ic st ls).2.conv_events = countP p st.conv_events ∧
      ∀ pr ∈ outPairs (build_links env outDir ic st ls).1,
        pr.1 = some p → pr.2 = some u := by
  intro ls
  induction ls with
  | nil =>
    intro st hc
    refine ⟨hc, rfl, ?_⟩
    intro pr hpr
    simp [build_links, outPairs] at hpr
  | cons l ls' ih =>
    intro st hc
    rw [build_links]
    obtain ⟨hv1, hv2, hv3⟩ := build_visuals_spec env outDir p u hex hne l.visuals st hc
    rcases hbv : build_visuals env outDir st l.visuals with ⟨vps, st1⟩
    rw [hbv] at hv1 hv2 hv3
    have hcol :
        assocFind p (if ic then build_collisions env outDir st1 l.collisions
          else ([], st1)).2.cache = some u ∧
        countP p (if ic then build_collisions env outDir st1 l.collisions
          else ([], st1)).2.conv_events = countP p st1.conv_events ∧
        ∀ pr ∈ (if ic then build_collisions env outDir st1 l.collisions
          else ([], st1)).1, collisionMeshPath pr.1 = some p → pr.2 = some u := by
      by_cases hic : ic = true
      · rw [if_pos hic]
        exact build_collisions_spec env outDir p u hex hne l.collisions st1 hv1
      · rw [if_neg hic]
        exact ⟨hv1, rfl, fun pr hpr => absurd hpr (List.not_mem_nil pr)⟩
    obtain ⟨hc1, hc2, hc3⟩ := hcol
    rcases hbc : (if ic then build_collisions env outDir st1 l.collisions
      else ([], st1)) with ⟨cps, st2⟩
    rw [hbc] at hc1 hc2 hc3
    obtain ⟨h1, h2, h3⟩ := ih st2 hc1
    rcases hbl : build_links env outDir ic st2 ls' with ⟨rest, st3⟩
    rw [hbl] at h1 h2 h3
    refine ⟨h1, by rw [h2, hc2, hv2], ?_⟩
    intro pr hpr hppr
    simp only [outPairs, List.map_append, List.mem_append, List.mem_map] at hpr
    rcases hpr with (⟨e, he, rfl⟩ | ⟨e, he, rfl⟩) | (⟨e, he, rfl⟩ | ⟨e, he, rfl⟩)
    · exact hv3 e he hppr
    · exact h3 (visualMeshPath e.1, e.2) (by
        simp only [outPairs, List.mem_append, List.mem_map]
        exact Or.inl ⟨e, he, rfl⟩) hppr
    · exact hc3 e he hppr
    · exact h3 (collisionMeshPath e.1, e.2) (by
        simp only [outPairs, List.mem_append, List.mem_map]
        exact Or.inr ⟨e, he, rfl⟩) hppr

theorem build_visuals_fst (env : FsEnv) (outDir : String) :
    ∀ (vs : List SdfVisual) (st : MeshConvSt) (pr : SdfVisual × Option String),
      pr ∈ (build_visuals env outDir st vs).1 → pr.1 ∈ vs := by
  intro vs
  induction vs with
  | nil =>
    intro st pr hpr
    exact absurd hpr (List.not_mem_nil pr)
  | cons v vs' ih =>
    intro st pr hpr
    rw [build_visuals] at hpr
    rcases List.mem_cons.1 hpr with rfl | hpr
    · exact List.mem_cons_self _ _
    · exact List.mem_cons_of_mem v (ih _ pr hpr)

theorem build_collisions_fst (env : FsEnv) (outDir : String) :
    ∀ (cs : List SdfCollision) (st : MeshConvSt) (pr : SdfCollision × Option String),
      pr ∈ (build_collisions env outDir st cs).1 → pr.1 ∈ cs := by
  intro cs
  induction cs with
  | nil =>
    intro st pr hpr
    exact absurd hpr (List.not_mem_nil pr)
  | cons c cs' ih =>
    intro st pr hpr
    rw [build_collisions] at hpr
    rcases List.mem_cons.1 hpr with rfl | hpr
    · exact List.mem_cons_self _ _
    · exact List.mem_cons_of_mem c (ih _ pr hpr)

theorem build_links_pairs_path (env : FsEnv) (outDir : String) (ic : Bool) :
    ∀ (ls : List SdfLink) (st : MeshConvSt) (pr : Option String × Option String)
      (q : String), pr ∈ outPairs (build_links env outDir ic st ls).1 → pr.1 = some q →
      q ∈ (ls.map fun link =>
        link.visuals.filterMap visualMeshPath ++
          (if ic then link.collisions.filterMap collisionMeshPath else [])).flatten := by
  intro ls
  induction ls with
  | nil =>
    intro st pr q hpr
    simp [build_links, outPairs] at hpr
  | cons l ls' ih =>
    intro st pr q hpr hq
    rw [build_links] at hpr
    rcases hbv : build_visuals env outDir st l.visuals with ⟨vps, st1⟩
    rw [hbv] at hpr
    rcases hbc : (if ic then build_collisions env outDir st1 l.collisions
      else ([], st1)) with ⟨cps, st2⟩
    rw [hbc] at hpr
    rcases hbl : build_links env outDir ic st2 ls' with ⟨rest, st3⟩
    rw [hbl] at hpr
    simp only [List.map_cons, List.flatten_cons, List.mem_append]
    simp only [outPairs, List.map_append, List.mem_append, List.mem_map] at hpr
    rcases hpr with (⟨e, he, rfl⟩ | ⟨e, he, rfl⟩) | (⟨e, he, rfl⟩ | ⟨e, he, rfl⟩)
    · left
      left
      have hmem := build_visuals_fst env outDir l.visuals st e (by rw [hbv]; exact he)
      exact List.mem_filterMap.2 ⟨e.1, hmem, hq⟩
    · right
      refine ih st2 (visualMeshPath e.1, e.2) q ?_ hq
      rw [hbl]
      simp only [outPairs, List.mem_append, List.mem_map]
      exact Or.inl ⟨e, he, rfl⟩
    · left
      right
      by_cases hic : ic = true
      · rw [if_pos hic] at hbc
        rw [if_pos hic]
        have hmem := build_collisions_fst env outDir l.collisions st1 e (by rw [hbc]; exact he)
        exact List.mem_filterMap.2 ⟨e.1, hmem, hq⟩
      · rw [if_neg hic] at hbc
        injection hbc with hbc1 hbc2
        rw [← hbc1] at he
        exact absurd he (List.not_mem_nil e)
    · right
      refine ih st2 (collisionMeshPath e.1, e.2) q ?_ hq
      rw [hbl]
      simp only [outPairs, List.mem_append, List.mem_map]
      exact Or.inr ⟨e, he, rfl⟩

theorem build_visuals_preserves (env : FsEnv) (outDir : String) (p u : String) :
    ∀ (vs : List SdfVisual) (st : MeshConvSt), assocFind p st.cache = some u →
      assocFind p (build_visuals env outDir st vs).2.cache = some u ∧
      countP p (build_visuals env outDir st vs).2.conv_events = countP p st.conv_events := by
  intro vs
  induction vs with
  | nil => exact fun st hc => ⟨hc, rfl⟩
  | cons v vs' ih =>
    intro st hc
    rw [build_visuals]
    obtain ⟨hp', hcnt'⟩ := build_visual_mesh_preserves env outDir p u v st hc
    rcases hbm : build_visual_mesh env outDir st v with ⟨a, st'⟩
    rw [hbm] at hp' hcnt'
    obtain ⟨h1, h2⟩ := ih st' hp'
    exact ⟨h1, h2.trans hcnt'⟩

theorem build_collisions_preserves (env : FsEnv) (outDir : String) (p u : String) :
    ∀ (cs : List SdfCollision) (st : MeshConvSt), assocFind p st.cache = some u →
      assocFind p (build_collisions env outDir st cs).2.cache = some u ∧
      countP p (build_collisions env outDir st cs).2.conv_events = countP p st.conv_events := by
  intro cs
  induction cs with
  | nil => exact fun st hc => ⟨hc, rfl⟩
  | cons c cs' ih =>
    intro st hc
    rw [build_collisions]
    obtain ⟨hp', hcnt'⟩ := build_collision_mesh_preserves env outDir p u c st hc
    rcases hbm : build_collision_mesh env outDir st c with ⟨a, st'⟩
    rw [hbm] at hp' hcnt'
    obtain ⟨h1, h2⟩ := ih st' hp'
    exact ⟨h1, h2.trans hcnt'⟩

theorem build_links_preserves (env : FsEnv) (outDir : String) (ic : Bool) (p u : String) :
    ∀ (ls : List SdfLink) (st : MeshConvSt), assocFind p st.cache = some u →
      assocFind p (build_links env outDir ic st ls).2.cache = some u ∧
      countP p (build_links env outDir ic st ls).2.conv_events = countP p st.conv_events := by
  intro ls
  induction ls with
  | nil => exact fun st hc => ⟨hc, rfl⟩
  | cons l ls' ih =>
    intro st hc
    rw [build_links]
    obtain ⟨hv1, hv2⟩ := build_visuals_preserves env outDir p u l.visuals st hc
    rcases hbv : build_visuals env outDir st l.visuals with ⟨vps, st1⟩
    rw [hbv] at hv1 hv2
    have hcol :
        assocFind p (if ic then build_collisions env outDir st1 l.collisions
          else ([], st1)).2.cache = some u ∧
        countP p (if ic then build_collisions env outDir st1 l.collisions
          else ([], st1)).2.conv_events = countP p st1.conv_events := by
      by_cases hic : ic = true
      · rw [if_pos hic]
        exact build_collisions_preserves env outDir p u l.collisions st1 hv1
      · rw [if_neg hic]
        exact ⟨hv1, rfl⟩
    obtain ⟨hc1, hc2⟩ := hcol
    rcases hbc : (if ic then build_collisions env outDir st1 l.collisions
      else ([], st1)) with ⟨cps, st2⟩
    rw [hbc] at hc1 hc2
    obtain ⟨h1, h2⟩ := ih st2 hc1
    rcases hbl : build_links env outDir ic st2 ls' with ⟨rest, st3⟩
    rw [hbl] at h1 h2
    exact ⟨h1, by rw [h2, hc2, hv2]⟩

theorem convert_run_count (env : FsEnv) (outDir : String) (ic : Bool) (m : SdfModel)
    (p : String) (hex : env.fsExists p = true)
    (hsup : SUPPORTED_MESH_FORMATS.contains (lowerStr (extnameOf p)) = true)
    (hok : env.convOk p = true) (hmem : p ∈ collectMeshPaths m ic) :
    ∃ u, assocFind p (convert_run env outDir ic m).st.cache = some u ∧
      countP p (convert_run env outDir ic m).st.conv_events = 1 := by
  have hpaths : p ∈ unique_sorted_paths m ic := (mem_unique_sorted_paths m ic p).2 hmem
  obtain ⟨u, h1, h2⟩ := pre_convert_establishes env outDir p hex hsup hok
    (unique_sorted_paths m ic) {} hpaths rfl rfl
  obtain ⟨h3, h4⟩ := build_links_preserves env outDir ic p u m.links
    (pre_convert env outDir {} (unique_sorted_paths m ic)).1 h1
  exact ⟨u, h3, by rw [convert_run] at *; rw [h4, h2]⟩

theorem convert_run_artifacts (env : FsEnv) (outDir : String) (ic : Bool) (m : SdfModel)
    (p u : String) (hex : env.fsExists p = true) (hne : p ≠ "")
    (hcache : assocFind p
      (pre_convert env outDir {} (unique_sorted_paths m ic)).1.cache = some u) :
    ∀ pr ∈ outPairs (convert_run env outDir ic m).out, pr.1 = some p → pr.2 = some u := by
  intro pr hpr hq
  obtain ⟨_, _, h3⟩ := build_links_spec env outDir ic p u hex hne m.links
    (pre_convert env outDir {} (unique_sorted_paths m ic)).1 hcache
  exact h3 pr hpr hq

/-! ## Claim C9: one conversion attempt per unique path -/

/-- Claim C9 (corrected).  A mesh path whose conversion SUCCEEDS in the
pre-conversion pass is handed to the external converter exactly once in the
whole run: the result is cached, and every later reference during the build
phase is a cache hit.  (As stated the claim is false: a path whose
conversion FAILS in the pre-conversion pass is not cached and is re-attempted
at every later reference — see the counterexample.) -/
theorem mesh_converted_once_on_success (env : FsEnv) (outDir : String) (ic : Bool)
    (m : SdfModel) (p : String)
    (hmem : p ∈ collectMeshPaths m ic) (hex : env.fsExists p = true)
    (hsup : SUPPORTED_MESH_FORMATS.contains (lowerStr (extnameOf p)) = true)
    (hok : env.convOk p = true) :
    countP p (convert_run env outDir ic m).st.conv_events = 1 := by
  obtain ⟨u, _, h⟩ := convert_run_count env outDir ic m p hex hsup hok hmem
  exact h

/-- Witness for C9: in a run over a single-visual model whose mesh exists
and converts successfully, the external converter is invoked exactly once
for its path. -/
theorem mesh_converted_once_witness :
    countP "/a/m.dae" (convert_run cexEnvOk "/out" true cexModelSingle).st.conv_events = 1 :=
  mesh_converted_once_on_success cexEnvOk "/out" true cexModelSingle "/a/m.dae"
    (by decide) (by decide) (by decide) (by decide)

/-- Counterexample for C9 as stated: with a single visual referencing an
existing path whose external conversion fails, the failure in the
pre-conversion pass is retried during the build phase — the external
converter is invoked twice for the same path in one run, not once. -/
theorem mesh_retry_after_failure_counterexample :
    (convert_run cexEnvFail "/out" true cexModelSingle).st.conv_events
      = ["/a/m.dae", "/a/m.dae"] ∧
    countP "/a/m.dae" (convert_run cexEnvFail "/out" true cexModelSingle).st.conv_events ≠ 1 ∧
    cexEnvFail.fsExists "/a/m.dae" = true :=
  ⟨by decide, by decide, by decide⟩

/-! ## Claim C1: shared mesh path converted once, one shared artifact -/

/-- Claim C1 (corrected).  When two visuals (or collisions, with collision
inclusion enabled) reference the identical resolved mesh path, the path
exists on disk, its extension is supported and its external conversion
SUCCEEDS, then the external Mesh Asset Converter is invoked exactly once for
that path in the whole run and both resulting nodes reference the same
converted artifact; the pre-conversion pass walks the set of unique resolved
paths in ascending sorted order.  (As stated — without the
conversion-success proviso — the claim is false: a failing path is
re-attempted at each reference, see the counterexample.) -/
theorem mesh_shared_path_single_invocation (env : FsEnv) (outDir : String) (ic : Bool)
    (m : SdfModel) (p : String) (pr₁ pr₂ : Option String × Option String)
    (h₁ : pr₁ ∈ outPairs (convert_run env outDir ic m).out)
    (h₂ : pr₂ ∈ outPairs (convert_run env outDir ic m).out)
    (hp₁ : pr₁.1 = some p) (hp₂ : pr₂.1 = some p)
    (hne : p ≠ "") (hex : env.fsExists p = true)
    (hsup : SUPPORTED_MESH_FORMATS.contains (lowerStr (extnameOf p)) = true)
    (hok : env.convOk p = true) :
    countP p (convert_run env outDir ic m).st.conv_events = 1 ∧
    (∃ u, pr₁.2 = some u ∧ pr₂.2 = some u) ∧
    List.Pairwise strLe (convert_run env outDir ic m).pre_list ∧
    (∀ q, q ∈ (convert_run env outDir ic m).pre_list ↔ q ∈ collectMeshPaths m ic) := by
  have hmem : p ∈ collectMeshPaths m ic :=
    build_links_pairs_path env outDir ic m.links
      (pre_convert env outDir {} (unique_sorted_paths m ic)).1 pr₁ p h₁ hp₁
  have hpaths : p ∈ unique_sorted_paths m ic := (mem_unique_sorted_paths m ic p).2 hmem
  obtain ⟨u, h1, h2⟩ := pre_convert_establishes env outDir p hex hsup hok
    (unique_sorted_paths m ic) {} hpaths rfl rfl
  obtain ⟨h3, h4⟩ := build_links_preserves env outDir ic p u m.links
    (pre_convert env outDir {} (unique_sorted_paths m ic)).1 h1
  have hart := convert_run_artifacts env outDir ic m p u hex hne h1
  refine ⟨?_, ⟨u, hart pr₁ h₁ hp₁, hart pr₂ h₂ hp₂⟩, ?_, ?_⟩
  · show countP p (build_links env outDir ic
      (pre_convert env outDir {} (unique_sorted_paths m ic)).1 m.links).2.conv_events = 1
    rw [h4, h2]
  · exact isort_pairwise _
  · exact fun q => mem_unique_sorted_paths m ic q

/-- Witness for C1: two visuals sharing the existing, successfully
converting path `/a/m.dae` give one converter invocation, both nodes
referencing `/out/meshes/m.usd`, with the pre-pass list sorted and matching
the collected paths. -/
theorem mesh_shared_path_witness :
    countP "/a/m.dae" (convert_run cexEnvOk "/out" true cexModelShared).st.conv_events = 1 ∧
    (∃ u, (some "/out/meshes/m.usd" : Option String) = some u ∧
      (some "/out/meshes/m.usd" : Option String) = some u) ∧
    List.Pairwise strLe (convert_run cexEnvOk "/out" true cexModelShared).pre_list ∧
    (∀ q, q ∈ (convert_run cexEnvOk "/out" true cexModelShared).pre_list ↔
      q ∈ collectMeshPaths cexModelShared true) :=
  mesh_shared_path_single_invocation cexEnvOk "/out" true cexModelShared "/a/m.dae"
    (some "/a/m.dae", some "/out/meshes/m.usd")
    (some "/a/m.dae", some "/out/meshes/m.usd")
    (by decide) (by decide) rfl rfl (by decide) (by decide) (by decide) (by decide)

/-- Counterexample for C1 as stated: two visuals share the existing path
`/a/m.dae`, but its external conversion fails; the converter is then invoked
three times for that path (pre-pass once, build phase once per visual) and
neither node is built — "invoked exactly once" and "both resulting nodes
reference the same converted artifact" both fail. -/
theorem mesh_shared_path_failure_counterexample :
    (convert_run cexEnvFail "/out" true cexModelShared).st.conv_events
      = ["/a/m.dae", "/a/m.dae", "/a/m.dae"] ∧
    countP "/a/m.dae" (convert_run cexEnvFail "/out" true cexModelShared).st.conv_events ≠ 1 ∧
    outPairs (convert_run cexEnvFail "/out" true cexModelShared).out
      = [(some "/a/m.dae", none), (some "/a/m.dae", none)] ∧
    cexEnvFail.fsExists "/a/m.dae" = true :=
  ⟨by decide, by decide, by decide, by decide⟩
